import Mathlib

/-!
# Verification of the work-queue state machine and approval/execution pipeline

A shallow embedding of the repository's watcher engine
(`scripts/watchers/base_watcher.py`), approval state machine
(`scripts/watchers/approval_watcher.py`) and action executor
(`scripts/utils/action_executor.py`), together with proofs of the
behavioural claims about deduplication, retry, move semantics,
staleness flagging, expiry handling, parse totality and dry-run mode.

Modelling conventions:
* Python dicts parsed from YAML frontmatter become association lists of
  `YVal`; Python `None` is the value `YVal.none`.
* Wall-clock timestamps recorded in log entries are elided (they are
  opaque strings in the code, and no claim is about them); times used
  for expiry/staleness arithmetic are `Int` seconds.
* File-system contents are explicit lists of `(name, content)` pairs;
  I/O failures are modelled by explicit outcome parameters where a
  claim is about failure behaviour.
-/

namespace DigitalFTE

/-- A YAML value as produced by `yaml.safe_load` on frontmatter blocks.
`YVal.none` is Python `None` (YAML null). -/
inductive YVal where
  | s (v : String)
  | b (v : Bool)
  | n (v : Int)
  | none
  | m (kvs : List (String × YVal))
  | l (vs : List YVal)

/-- Association-list lookup, the model of Python `dict.__getitem__` presence. -/
def lookupKV (kvs : List (String × YVal)) (k : String) : Option YVal :=
  (kvs.find? (fun p => p.1 == k)).map (fun p => p.2)

/-- Python `dict.get(k)`: `None` when the key is absent. -/
def pyGet (kvs : List (String × YVal)) (k : String) : YVal :=
  (lookupKV kvs k).getD YVal.none

/-- Python `dict.get(k, default)`. -/
def pyGetD (kvs : List (String × YVal)) (k : String) (d : YVal) : YVal :=
  (lookupKV kvs k).getD d

/-- Python truthiness of a YAML value (`if not x` tests). -/
def YVal.truthy : YVal → Bool
  | .s v => v != ""
  | .b v => v
  | .n v => v != 0
  | .none => false
  | .m kvs => !kvs.isEmpty
  | .l vs => !vs.isEmpty

mutual

/-- Structural equality test on YAML values (model of Python `==` on the
shapes that occur in frontmatter). -/
def YVal.beq : YVal → YVal → Bool
  | YVal.s x, YVal.s y => x == y
  | YVal.b x, YVal.b y => x == y
  | YVal.n x, YVal.n y => x == y
  | YVal.none, YVal.none => true
  | YVal.m x, YVal.m y => YVal.beqKVs x y
  | YVal.l x, YVal.l y => YVal.beqList x y
  | _, _ => false

def YVal.beqKVs : List (String × YVal) → List (String × YVal) → Bool
  | [], [] => true
  | (k1, v1) :: t1, (k2, v2) :: t2 => k1 == k2 && YVal.beq v1 v2 && YVal.beqKVs t1 t2
  | _, _ => false

def YVal.beqList : List YVal → List YVal → Bool
  | [], [] => true
  | x :: t1, y :: t2 => YVal.beq x y && YVal.beqList t1 t2
  | _, _ => false

end

/-- Python `str()` of a YAML value.  Container reprs are abbreviated: no
claim evaluates `str` on a dict or list. -/
def pyStr : YVal → String
  | .s v => v
  | .b true => "True"
  | .b false => "False"
  | .n v => toString v
  | .none => "None"
  | .m _ => "\x7b...\x7d"
  | .l _ => "[...]"

/-- Python `repr()` as used by `f"{x!r}"`.  Strings gain single quotes. -/
def pyRepr : YVal → String
  | .s v => "\u0027" ++ v ++ "\u0027"
  | .b true => "True"
  | .b false => "False"
  | .n v => toString v
  | .none => "None"
  | .m _ => "\x7b...\x7d"
  | .l _ => "[...]"

/-- Update one key of an association list, preserving insertion order as
Python `dict.update` does: existing keys keep their position, new keys
are appended. -/
def upsertKV (kvs : List (String × YVal)) (k : String) (v : YVal) : List (String × YVal) :=
  if kvs.any (fun p => p.1 == k) then
    kvs.map (fun p => if p.1 == k then (k, v) else p)
  else
    kvs ++ [(k, v)]

/-- Apply a sequence of updates (Python `fm.update(updates)`). -/
def updateKVs (kvs : List (String × YVal)) (updates : List (String × YVal)) : List (String × YVal) :=
  updates.foldl (fun acc p => upsertKV acc p.1 p.2) kvs

/-- Python `str.lower()` (character-wise, as `String.toLower` is), on
the char-list representation so that it reduces in the kernel. -/
def pyLower (s : String) : String :=
  String.mk (s.data.map Char.toLower)

/-- Python `str.strip()`: drop whitespace from both ends. -/
def pyStrip (s : String) : String :=
  String.mk (((s.data.dropWhile Char.isWhitespace).reverse.dropWhile
    Char.isWhitespace).reverse)

/-! ## Decimal rendering of naturals (model of Python `str(counter)`)

Needed for the collision suffixes `_1`, `_2`, … of `_move_to_done`.
We prove it injective, which underpins the no-overwrite property. -/

/-- Little-endian decimal digit list of a natural number; `[]` for `0`. -/
def decDigits : Nat → List Char
  | 0 => []
  | n + 1 => Nat.digitChar ((n + 1) % 10) :: decDigits ((n + 1) / 10)
decreasing_by exact Nat.div_lt_self (Nat.succ_pos n) (by omega)

/-- Decimal string of a natural number. -/
def natStr (n : Nat) : String :=
  if n = 0 then "0" else ⟨(decDigits n).reverse⟩

/-! ## Filenames: stem/suffix split and collision counter

Embedding of `_move_to_done` (`approval_watcher.py` lines 591-609): the
destination candidate starts as the source name; on collision the names
`{stem}_1{suffix}`, `{stem}_2{suffix}`, … are tried in order. -/

/-- Index of the last dot of a character list, if any. -/
def lastDotIdx (cs : List Char) : Option Nat :=
  ((List.range cs.length).filter (fun i => cs.getD i ' ' == '.')).getLast?

/-- `pathlib.Path.stem` / `.suffix`: split at the last dot; a lone
leading dot (hidden file) yields an empty suffix. -/
def splitStemSuffix (nm : String) : String × String :=
  let cs := nm.data
  match lastDotIdx cs with
  | Option.none => (nm, "")
  | some 0 => (nm, "")
  | some i => (String.mk (cs.take i), String.mk (cs.drop i))

/-- One collision-suffix candidate. -/
def suffixName (stem ext : String) (k : Nat) : String :=
  stem ++ "_" ++ natStr k ++ ext

/-- The `while True` counter loop of `_move_to_done`, with explicit fuel.
`names.length + 1` fuel always suffices (`firstFree_not_mem`). -/
def firstFree (names : List String) (stem ext : String) : Nat → Nat → String
  | k, 0 => suffixName stem ext k
  | k, fuel + 1 =>
    let cand := suffixName stem ext k
    if names.contains cand then firstFree names stem ext (k + 1) fuel else cand

/-- The destination name chosen by `_move_to_done`. -/
def candidateName (names : List String) (nm : String) : String :=
  if names.contains nm then
    let p := splitStemSuffix nm
    firstFree names p.1 p.2 1 (names.length + 1)
  else nm

/-! ## File contents

The content of a Markdown file as seen by the frontmatter-handling code:
the mutually exclusive cases of the decision trees in
`parse_approval_file`, `read_frontmatter` and
`_update_frontmatter_fields`. -/

inductive FileContent where
  /-- `read_text` raises `OSError`. -/
  | unreadable (msg : String)
  /-- Text does not start with `---`. -/
  | noFront (body : String)
  /-- Frontmatter block never closed by a second `---`. -/
  | unclosed (body : String)
  /-- `yaml.safe_load` raises `YAMLError` on the block. -/
  | badYaml (msg : String) (body : String)
  /-- Well-formed frontmatter block parsed to `v`, followed by `body`. -/
  | yaml (v : YVal) (body : String)

/-- `read_frontmatter` (`vault_helpers.py`): returns `{}` on any failure
or non-mapping frontmatter. -/
def read_frontmatter : FileContent → List (String × YVal)
  | .yaml (.m kvs) _ => kvs
  | _ => []

/-- `_update_frontmatter_fields` (`approval_watcher.py` lines 35-73):
silently a no-op when the file is unreadable, has no frontmatter or an
unclosed block; resets the mapping to `{}` when the YAML is malformed or
not a mapping, then applies the updates and rewrites the file. -/
def update_frontmatter_fields (c : FileContent) (updates : List (String × YVal)) : FileContent :=
  match c with
  | .unreadable m => .unreadable m
  | .noFront b => .noFront b
  | .unclosed b => .unclosed b
  | .badYaml _ b => .yaml (.m (updateKVs [] updates)) b
  | .yaml (.m kvs) b => .yaml (.m (updateKVs kvs updates)) b
  | .yaml _ b => .yaml (.m (updateKVs [] updates)) b

/-! ## Directories and the move primitive -/

/-- A directory: files as `(name, content)` pairs, names unique. -/
abbrev FileMap := List (String × FileContent)

def lookupFile (fs : FileMap) (nm : String) : Option FileContent :=
  (fs.find? (fun p => p.1 == nm)).map (fun p => p.2)

def removeFile (fs : FileMap) (nm : String) : FileMap :=
  fs.filter (fun p => p.1 != nm)

/-- Result of `_move_to_done`.  `dest = none` means the move raised
(`shutil.copy2` failed, or the source was missing) before the source was
unlinked. -/
structure MoveOut where
  src : FileMap
  dst : FileMap
  dest : Option String

/-- `_move_to_done` (`approval_watcher.py` lines 591-609): pick a
collision-free destination name, copy the file there, then unlink the
source.  `copyOk = false` models `shutil.copy2` raising: the exception
propagates and the `unlink` line is never reached. -/
def move_to_done (copyOk : Bool) (src dst : FileMap) (nm : String) : MoveOut :=
  match lookupFile src nm with
  | Option.none => { src := src, dst := dst, dest := Option.none }
  | some c =>
    let cand := candidateName (dst.map (fun p => p.1)) nm
    if copyOk then
      { src := removeFile src nm, dst := dst ++ [(cand, c)], dest := some cand }
    else
      { src := src, dst := dst, dest := Option.none }

/-! ## BaseWatcher: deduplication and the polling cycle

Embedding of `scripts/watchers/base_watcher.py`. -/

/-- `_STATE_MAX_IDS`. -/
def STATE_MAX_IDS : Nat := 10000

/-- `_STATE_TRIM_TO`. -/
def STATE_TRIM_TO : Nat := 5000

/-- `should_process`: true iff the id has NOT been processed before. -/
def should_process (ids : List String) (item_id : String) : Bool :=
  !(ids.contains item_id)

/-- The in-memory effect of `mark_processed`: append if new, then cap at
`_STATE_MAX_IDS` by dropping the oldest entries down to `_STATE_TRIM_TO`. -/
def mark_processed (ids : List String) (item_id : String) : List String :=
  let ids1 := if ids.contains item_id then ids else ids ++ [item_id]
  if STATE_MAX_IDS < ids1.length then ids1.drop (ids1.length - STATE_TRIM_TO) else ids1

/-- The persisted `.state/{watcher}_processed.json` file. -/
inductive StateFile where
  | absent
  | corrupted
  | good (processed_ids : List String)
deriving Repr, DecidableEq

/-- `_load_state`: missing or corrupted state resets to empty. -/
def load_state : StateFile → List String
  | .absent => []
  | .corrupted => []
  | .good ids => ids

/-- `_save_state`: atomically persist the processed ids. -/
def save_state (ids : List String) : StateFile :=
  .good ids

/-- The item dict contract of `check_for_updates` (the fields `run_once`
and `_log_action` consume). -/
structure Item where
  id : String
  itemType : String
  source : String
  subject : String
deriving Repr, DecidableEq

/-- One audit-log record (`/Logs/YYYY-MM-DD.json` entry).  The union of
the shapes written by `_log_action`, `_log_hitl_action` and
`_log_execution`; keys a writer does not set are `none`.  The wall-clock
`timestamp` string is elided. -/
structure AuditEntry where
  action_type : String
  actor : String
  input_file : Option String
  output_file : Option String
  source_file : Option String
  action : Option String
  target : Option String
  summary : Option String
  result : String
  error : Option String
deriving Repr, DecidableEq

/-- The entry `_log_action` appends after a successful materialization. -/
def watcherDetectEntry (watcher_name : String) (dry : Bool) (it : Item) (outPath : String) :
    AuditEntry :=
  { action_type := "watcher_detect"
    actor := watcher_name
    input_file := Option.none
    output_file := some outPath
    source_file := Option.none
    action := Option.none
    target := Option.none
    summary := some ((if dry then "[DRY RUN] " else "")
      ++ "New " ++ it.itemType ++ " from " ++ it.source ++ ": " ++ it.subject)
    result := "success"
    error := Option.none }

/-- Outcome of one `create_action_file` call.  `osError` covers the
`(OSError, PermissionError)` pair the loop catches; `otherRaise` is any
other exception, which escapes `run_once`. -/
inductive MatResult where
  | ok (path : String)
  | osError (msg : String)
  | otherRaise (msg : String)
deriving Repr, DecidableEq

/-- Watcher state touched by one cycle. -/
structure WState where
  ids : List String
  stateFile : StateFile
  audit : List AuditEntry
deriving Repr, DecidableEq

/-- Accumulator of a cycle: state plus the `created` result list and the
list of items on which `create_action_file` was actually invoked. -/
structure RunAcc where
  st : WState
  created : List String
  attempts : List Item
deriving Repr, DecidableEq

/-- Result of `run_once`: normal return, or an exception escaping the
per-item loop (with the mutations made so far). -/
inductive RunOutcome where
  | ok (acc : RunAcc)
  | raised (acc : RunAcc) (msg : String)
deriving Repr, DecidableEq

/-- The accumulator of an outcome, whether or not the cycle raised. -/
def accOf : RunOutcome → RunAcc
  | .ok acc => acc
  | .raised acc _ => acc

/-- The per-item loop of `run_once` (`base_watcher.py` lines 184-211):
skip already-processed ids; catch `OSError`/`PermissionError` from
`create_action_file` and continue; on success `mark_processed`, persist,
append one audit entry and record the created path. -/
def runOnceGo (watcher_name : String) (dry : Bool) (mat : Item → MatResult) :
    RunAcc → List Item → RunOutcome
  | acc, [] => .ok acc
  | acc, it :: rest =>
    if should_process acc.st.ids it.id then
      match mat it with
      | .osError _ =>
        runOnceGo watcher_name dry mat { acc with attempts := acc.attempts ++ [it] } rest
      | .otherRaise msg =>
        .raised { acc with attempts := acc.attempts ++ [it] } msg
      | .ok path =>
        let ids1 := mark_processed acc.st.ids it.id
        runOnceGo watcher_name dry mat
          { st := { ids := ids1
                    stateFile := save_state ids1
                    audit := acc.st.audit ++ [watcherDetectEntry watcher_name dry it path] }
            created := acc.created ++ [path]
            attempts := acc.attempts ++ [it] } rest
    else
      runOnceGo watcher_name dry mat acc rest

/-- `run_once` on a given poll result. -/
def run_once (watcher_name : String) (dry : Bool) (mat : Item → MatResult)
    (st : WState) (items : List Item) : RunOutcome :=
  runOnceGo watcher_name dry mat { st := st, created := [], attempts := [] } items

/-- One iteration of the `run` loop (`base_watcher.py` lines 151-171):
the cycle-level `except Exception` guard logs a raised cycle and the
process continues with the state as mutated so far. -/
def runCycleStep (watcher_name : String) (dry : Bool) (mat : Item → MatResult)
    (st : WState) (items : List Item) : WState :=
  match run_once watcher_name dry mat st items with
  | .ok acc => acc.st
  | .raised acc _ => acc.st

/-- A materializer that always succeeds, writing `pathOf it`. -/
def okMat (pathOf : Item → String) : Item → MatResult :=
  fun it => .ok (pathOf it)

/-! ## ActionExecutor (scripts/utils/action_executor.py) -/

/-- `is_dry_run` (`vault_helpers.py` lines 164-166): read the `DRY_RUN`
environment variable, defaulting to `"true"` when unset. -/
def is_dry_run (env : Option String) : Bool :=
  pyLower (env.getD "true") == "true"

/-- A character matched by the `[^\s@]` classes of `_EMAIL_RE`. -/
def emailCharOk (c : Char) : Bool :=
  !c.isWhitespace && c != '@'

/-- Split a character list at every occurrence of `sep` (the `@`-split
of the email pattern). -/
def splitChar (sep : Char) (cs : List Char) : List (List Char) :=
  cs.foldr
    (fun x acc => if x == sep then [] :: acc else (x :: acc.headD []) :: acc.tail)
    [[]]

/-- The domain part must contain a dot with at least one character on
each side (the `[^\s@]+\.[^\s@]+` tail of the pattern). -/
def hasInnerDot (cs : List Char) : Bool :=
  (List.range cs.length).any (fun i =>
    cs.getD i ' ' == '.' && decide (0 < i) && decide (i + 1 < cs.length))

/-- `_EMAIL_RE`: `^[^\s@]+@[^\s@]+\.[^\s@]+$`. -/
def emailValid (s : String) : Bool :=
  match splitChar '@' s.data with
  | [lp, dom] =>
    !lp.isEmpty && lp.all emailCharOk
      && !dom.isEmpty && dom.all emailCharOk && hasInnerDot dom
  | _ => false

/-- `_REQUIRED_PARAMS` (`.get(action_type, [])`). -/
def required_params (action_type : String) : List String :=
  if action_type == "send_email" then ["to", "subject", "body"]
  else if action_type == "draft_email" then ["to", "subject", "body"]
  else if action_type == "reply_to_thread" then ["thread_id", "body"]
  else if action_type == "reply_email" then ["thread_id", "body"]
  else if action_type == "linkedin_post" then ["content"]
  else []

/-- The keys of `self.supported_actions`. -/
def supported_actions : List String :=
  ["send_email", "draft_email", "reply_to_thread", "reply_email",
   "linkedin_post", "generic"]

/-- Modelled: `datetime.fromisoformat` (after the `Z` → `+00:00`
rewrite) on the embedded timestamp format.  Timestamps are decimal
integer seconds; any other string fails to parse, which is the
`ValueError` branch that leaves `is_expired` false. -/
def parseTimestamp (s : String) : Option Int :=
  match s.data with
  | [] => Option.none
  | cs =>
    if cs.all Char.isDigit then
      some ((cs.foldl (fun n c => n * 10 + (c.toNat - 48)) 0 : Nat) : Int)
    else Option.none

/-- The dict `parse_approval_file` returns. -/
structure ParsedAction where
  frontmatter : List (String × YVal)
  action_type : String
  action_payload : List (String × YVal)
  target : String
  priority : String
  source_plan : YVal
  source_task : YVal
  is_expired : Bool

/-- `parse_approval_file` (`action_executor.py` lines 133-203).
`Except String` models `raise ValueError(msg)` (the `YAMLError` case is
wrapped into a `ValueError` by the code itself). -/
def parse_approval_file (now : Int) : FileContent → Except String ParsedAction
  | .unreadable msg => .error ("Cannot read file: " ++ msg)
  | .noFront _ => .error "File has no YAML frontmatter"
  | .unclosed _ => .error "Frontmatter not closed with ---"
  | .badYaml msg _ => .error ("Malformed YAML frontmatter: " ++ msg)
  | .yaml v _ =>
    match v with
    | .m fm =>
      if !(YVal.beq (pyGet fm "type") (.s "approval_request")) then
        .error ("File type must be \u0027approval_request\u0027, got: " ++ pyRepr (pyGet fm "type"))
      else
        let action_payload := pyGet fm "action_payload"
        if !action_payload.truthy then
          .error "Missing required field: action_payload"
        else
          match action_payload with
          | .m payload =>
            if !(pyGet payload "tool").truthy then
              .error "Missing required field: action_payload.tool"
            else
              match pyGet payload "params" with
              | .none => .error "Missing required field: action_payload.params"
              | _ =>
                let expires_raw := pyGet fm "expires"
                let is_expired :=
                  if expires_raw.truthy then
                    match parseTimestamp (pyStr expires_raw) with
                    | some t => decide (t < now)
                    | Option.none => false
                  else false
                .ok { frontmatter := fm
                      action_type := pyStr (pyGetD fm "action_type" (.s "generic"))
                      action_payload := payload
                      target := pyStr (pyGetD fm "target" (.s ""))
                      priority := pyStr (pyGetD fm "priority" (.s "medium"))
                      source_plan := pyGet fm "source_plan"
                      source_task := pyGet fm "source_task"
                      is_expired := is_expired }
          | _ => .error "action_payload must be a mapping"
    | _ => .error "Frontmatter is not a YAML mapping"

/-- `validate_action` (lines 205-244): the list of validation errors,
empty means valid.  `is_expired` is consulted only for a log warning,
never for an error. -/
def validate_action (parsed : ParsedAction) : List String :=
  if !(supported_actions.contains parsed.action_type) then
    ["Unsupported action type: " ++ pyRepr (.s parsed.action_type)]
  else
    match pyGetD parsed.action_payload "params" (.m []) with
    | .m params =>
      let missing := (required_params parsed.action_type).filterMap (fun f =>
        if (pyGet params f).truthy then Option.none
        else some ("Missing required param: " ++ pyRepr (.s f)))
      let emailErrs :=
        if parsed.action_type == "send_email" || parsed.action_type == "draft_email" then
          let to_addr := pyStr (pyGetD params "to" (.s ""))
          let e1 :=
            if to_addr != "" && !(emailValid to_addr) then
              ["Invalid email address: " ++ pyRepr (.s to_addr)]
            else []
          let body := pyStrip (pyStr (pyGetD params "body" (.s "")))
          let e2 := if body == "" then ["Email body cannot be empty"] else []
          e1 ++ e2
        else []
      missing ++ emailErrs
    | _ => ["action_payload.params must be a mapping"]

/-- The structured dict `_run_cli` returns (that helper catches non-zero
exit, timeout and missing-CLI internally and never raises). -/
structure CliResult where
  success : Bool
  result : Option String
  error : Option String
deriving Repr, DecidableEq

/-- The result dict of `ActionExecutor.execute` (timestamp elided). -/
structure ExecResult where
  success : Bool
  action_type : String
  target : String
  result : Option String
  dry_run : Bool
  error : Option String
deriving Repr, DecidableEq

/-- `_get_cli_path`. -/
def get_cli_path (envCliPath : Option String) (vault : String) : String :=
  match envCliPath with
  | some p => p
  | Option.none => vault ++ "/mcp-servers/email-mcp/src/cli.ts"

/-- `_execute_send_email` command line.  Validation has already ensured
`to`/`subject`/`body` are present, so `params[k]` indexing succeeds. -/
def send_email_cmd (cli : String) (params : List (String × YVal)) : List String :=
  ["npx", "tsx", cli, "send_email",
   "--to", pyStr (pyGet params "to"),
   "--subject", pyStr (pyGet params "subject"),
   "--body", pyStr (pyGet params "body")]
  ++ (if (pyGet params "cc").truthy then ["--cc", pyStr (pyGet params "cc")] else [])
  ++ (if (pyGet params "bcc").truthy then ["--bcc", pyStr (pyGet params "bcc")] else [])

/-- `_execute_draft_email` command line. -/
def draft_email_cmd (cli : String) (params : List (String × YVal)) : List String :=
  ["npx", "tsx", cli, "draft_email",
   "--to", pyStr (pyGet params "to"),
   "--subject", pyStr (pyGet params "subject"),
   "--body", pyStr (pyGet params "body")]

/-- `_execute_reply_email` command line. -/
def reply_email_cmd (cli : String) (params : List (String × YVal)) : List String :=
  ["npx", "tsx", cli, "reply_to_thread",
   "--thread-id", pyStr (pyGet params "thread_id"),
   "--body", pyStr (pyGet params "body")]
  ++ (if (pyGet params "reply_all").truthy then ["--reply-all"] else [])

/-- `_execute_linkedin_post`: fixed failure, no subprocess. -/
def linkedin_partial_result : CliResult :=
  { success := false, result := Option.none,
    error := some "LinkedIn MCP not yet implemented" }

/-- `_execute_generic`: fixed failure, no subprocess. -/
def generic_partial_result : CliResult :=
  { success := false, result := Option.none,
    error := some "Generic actions require manual execution" }

/-- `_simulate_execution` (lines 308-342): always `success = true`. -/
def simulate_execution (action_type : String) (params : List (String × YVal)) : ExecResult :=
  if action_type == "send_email" then
    let target := pyStr (pyGetD params "to" (.s "unknown"))
    let subject := pyStr (pyGetD params "subject" (.s ""))
    { success := true, action_type := action_type, target := target
      result := some ("[DRY RUN] Would send email to " ++ target
        ++ " with subject \u0027" ++ subject ++ "\u0027")
      dry_run := true, error := Option.none }
  else if action_type == "draft_email" then
    let target := pyStr (pyGetD params "to" (.s "unknown"))
    let subject := pyStr (pyGetD params "subject" (.s ""))
    { success := true, action_type := action_type, target := target
      result := some ("[DRY RUN] Would create draft to " ++ target
        ++ " with subject \u0027" ++ subject ++ "\u0027")
      dry_run := true, error := Option.none }
  else if action_type == "reply_to_thread" || action_type == "reply_email" then
    let target := pyStr (pyGetD params "thread_id" (.s "unknown"))
    { success := true, action_type := action_type, target := target
      result := some ("[DRY RUN] Would reply to thread " ++ target)
      dry_run := true, error := Option.none }
  else if action_type == "linkedin_post" then
    { success := true, action_type := action_type, target := "linkedin"
      result := some "[DRY RUN] Would post to LinkedIn"
      dry_run := true, error := Option.none }
  else
    { success := true, action_type := action_type, target := "unknown"
      result := some ("[DRY RUN] Would execute " ++ action_type)
      dry_run := true, error := Option.none }

/-- The audit entry `_log_execution` appends (timestamp elided). -/
def logExecutionEntry (fileName : String) (action_type : String) (r : ExecResult) : AuditEntry :=
  { action_type := "hitl_execution"
    actor := "action_executor"
    input_file := Option.none
    output_file := Option.none
    source_file := some fileName
    action := some action_type
    target := some r.target
    summary := Option.none
    result := if r.success then "success" else "failure"
    error := Option.none }

/-- `ActionExecutor.execute` (lines 64-131), with the subprocess world
abstracted as `runCli`.  Returns the result dict, the audit entries
appended, and the command lines actually handed to `subprocess.run`. -/
def executeAction (dry_run : Bool) (now : Int) (runCli : List String → CliResult)
    (cli : String) (fileName : String) (content : FileContent) :
    ExecResult × List AuditEntry × List (List String) :=
  match parse_approval_file now content with
  | .error e =>
    ({ success := false, action_type := "unknown", target := fileName
       result := Option.none, dry_run := dry_run, error := some e }, [], [])
  | .ok parsed =>
    let errors := validate_action parsed
    if !errors.isEmpty then
      let r : ExecResult :=
        { success := false, action_type := parsed.action_type, target := parsed.target
          result := Option.none, dry_run := dry_run
          error := some ("Validation failed: " ++ String.intercalate "; " errors) }
      (r, [logExecutionEntry fileName parsed.action_type r], [])
    else
      let params := match pyGetD parsed.action_payload "params" (.m []) with
        | .m ps => ps
        | _ => []
      if dry_run then
        let r := simulate_execution parsed.action_type params
        (r, [logExecutionEntry fileName parsed.action_type r], [])
      else
        let merge := fun (pr : CliResult) =>
          ({ success := pr.success, action_type := parsed.action_type
             target := parsed.target, result := pr.result
             dry_run := dry_run, error := pr.error } : ExecResult)
        if parsed.action_type == "send_email" then
          let cmd := send_email_cmd cli params
          let r := merge (runCli cmd)
          (r, [logExecutionEntry fileName parsed.action_type r], [cmd])
        else if parsed.action_type == "draft_email" then
          let cmd := draft_email_cmd cli params
          let r := merge (runCli cmd)
          (r, [logExecutionEntry fileName parsed.action_type r], [cmd])
        else if parsed.action_type == "reply_to_thread"
            || parsed.action_type == "reply_email" then
          let cmd := reply_email_cmd cli params
          let r := merge (runCli cmd)
          (r, [logExecutionEntry fileName parsed.action_type r], [cmd])
        else if parsed.action_type == "linkedin_post" then
          let r := merge linkedin_partial_result
          (r, [logExecutionEntry fileName parsed.action_type r], [])
        else if parsed.action_type == "generic" then
          let r := merge generic_partial_result
          (r, [logExecutionEntry fileName parsed.action_type r], [])
        else
          let r : ExecResult :=
            { success := false, action_type := parsed.action_type, target := parsed.target
              result := Option.none, dry_run := dry_run
              error := some ("Unsupported action type: " ++ pyRepr (.s parsed.action_type)) }
          (r, [logExecutionEntry fileName parsed.action_type r], [])

/-! ## ApprovalWatcher (scripts/watchers/approval_watcher.py) -/

/-- Watcher configuration (constructor arguments). -/
structure ApprovalCfg where
  max_retries : Nat
  retry_delay : Nat
  expiry_hours : Nat
deriving Repr, DecidableEq

/-- The keys of the executor-result dict that `_handle_approval`
consumes (`last_result["success"]`, `last_result.get("error")`). -/
structure StubResult where
  success : Bool
  error : Option String
deriving Repr, DecidableEq

/-- Ordered low-level side effects of the approval handler: executor
invocations, retry sleeps, and the expiry log warning. -/
inductive Ev where
  | execCall
  | sleepSecs (secs : Nat)
  | warnExpired
deriving Repr, DecidableEq

/-- The retry loop of `_handle_approval` (lines 279-292): up to
`max_retries + 1` calls, `time.sleep(retry_delay)` between attempts and
none after the final one, stop on first success.  `execF k` is the
outcome of call number `k` (0-based); the second argument is the number
of attempts still allowed after the current one. -/
def retryExecGo (execF : Nat → StubResult) (retry_delay : Nat) :
    Nat → Nat → StubResult × List Ev
  | attempt, 0 => (execF attempt, [Ev.execCall])
  | attempt, remaining + 1 =>
    let r := execF attempt
    if r.success then (r, [Ev.execCall])
    else
      let out := retryExecGo execF retry_delay (attempt + 1) remaining
      (out.1, Ev.execCall :: Ev.sleepSecs retry_delay :: out.2)

/-- The whole retry phase: attempts `0, 1, …, max_retries`. -/
def retryExec (execF : Nat → StubResult) (max_retries retry_delay : Nat) :
    StubResult × List Ev :=
  retryExecGo execF retry_delay 0 max_retries

/-- The vault directories and reporting sinks the approval watcher
touches, plus the ordered event trace. -/
structure AVault where
  approved : FileMap
  rejected : FileMap
  done : FileMap
  audit : List AuditEntry
  dashboard_errors : List (String × String)
  activity : List (String × String × String)
  pending_removed : List String
  queue_count_updates : Nat
  events : List Ev

/-- An item dict built by `check_for_updates` from a scanned file.
`fm` is the file frontmatter; the handler reads `action_type` / `target`
through the frontmatter overlay (those keys are not among the computed
item keys, so `item.get` falls through to `fm`). -/
structure ScanItem where
  id : String
  folder : String
  source : String
  subject : String
  priority : String
  received : String
  fm : List (String × YVal)

/-- `item.get(k, default)` for an overlay key, rendered by the consuming
f-string. -/
def overlayGetStr (it : ScanItem) (k : String) (d : String) : String :=
  match lookupKV it.fm k with
  | some v => pyStr v
  | Option.none => d

/-- The entry `_log_hitl_action` appends (timestamp elided). -/
def hitlEntry (atype actor srcFile act tgt res : String) (err : Option String) : AuditEntry :=
  { action_type := atype
    actor := actor
    input_file := Option.none
    output_file := Option.none
    source_file := some srcFile
    action := some act
    target := some tgt
    summary := Option.none
    result := res
    error := err }

/-- Replace the content of one named file in a directory. -/
def updateFileIn (fs : FileMap) (nm : String) (f : FileContent → FileContent) : FileMap :=
  fs.map (fun p => if p.1 == nm then (p.1, f p.2) else p)

/-- Phase 3-6 of `_handle_approval` (lines 278-339): execute with
retry, then the success or exhausted-retries path.  Reads only
`action_type` and `target` from the parsed request — in particular it
never consults `is_expired`. -/
def handle_approval_exec_phase (cfg : ApprovalCfg) (execF : Nat → StubResult)
    (v1x : AVault) (it : ScanItem) (parsed : ParsedAction) : AVault × String :=
  let name := it.id
  let approvedPath := "Approved/" ++ name
  let rr := retryExec execF cfg.max_retries cfg.retry_delay
  let v1 := { v1x with events := v1x.events ++ rr.2 }
  if rr.1.success then
    let v2 := { v1 with approved := (updateFileIn v1.approved name
                  (fun c => update_frontmatter_fields c
                    [("status", YVal.s "executed")])) }
    let mv := move_to_done true v2.approved v2.done name
    let donePath := "Done/" ++ (mv.dest.getD name)
    let v3 := { v2 with approved := mv.src, done := mv.dst }
    let v4 := { v3 with audit := (v3.audit ++
                  [hitlEntry "hitl_execution" "approval_watcher" donePath
                    parsed.action_type parsed.target "success" Option.none]) }
    let v5 := { v4 with
                activity := (v4.activity ++
                  [("Executed: " ++ parsed.action_type,
                    "Target: " ++ parsed.target, "success")])
                pending_removed := (v4.pending_removed ++ [parsed.target])
                queue_count_updates := v4.queue_count_updates + 1 }
    (v5, donePath)
  else
    let error_msg := rr.1.error.getD "Execution failed"
    let v2 := { v1 with approved := (updateFileIn v1.approved name
                  (fun c => update_frontmatter_fields c
                    [("status", YVal.s "execution_failed"),
                     ("error", YVal.s error_msg)])) }
    let v3 := { v2 with audit := (v2.audit ++
                  [hitlEntry "hitl_execution" "approval_watcher" approvedPath
                    parsed.action_type parsed.target "failure" (some error_msg)]) }
    let v4 := { v3 with dashboard_errors := (v3.dashboard_errors ++
                  [("approval_watcher",
                    "Action failed — manual intervention needed: " ++ name)]) }
    (v4, approvedPath)

/-- `_handle_approval` (lines 209-339), with the executor stubbed by
`execF` and file I/O succeeding.  Returns the updated vault and the
path the handler returns (the Done path on success, the Approved path
otherwise). -/
def handle_approval (cfg : ApprovalCfg) (now : Int) (execF : Nat → StubResult)
    (v : AVault) (it : ScanItem) : AVault × String :=
  let name := it.id
  let approvedPath := "Approved/" ++ name
  match lookupFile v.approved name with
  | Option.none => (v, approvedPath)
  | some content =>
    match parse_approval_file now content with
    | .error e =>
      let v1 := { v with approved := (updateFileIn v.approved name
                    (fun c => update_frontmatter_fields c [("status", YVal.s "parse_failed")])) }
      let v2 := { v1 with dashboard_errors := (v1.dashboard_errors ++
                    [("approval_watcher", "Parse failed: " ++ name ++ " — " ++ e)]) }
      let v3 := { v2 with audit := (v2.audit ++
                    [hitlEntry "hitl_execution" "approval_watcher" approvedPath
                      (overlayGetStr it "action_type" "unknown")
                      (overlayGetStr it "target" name) "failure" (some e)]) }
      (v3, approvedPath)
    | .ok parsed =>
      let errors := validate_action parsed
      if !errors.isEmpty then
        let error_msg := String.intercalate "; " errors
        let v1 := { v with approved := (updateFileIn v.approved name
                      (fun c => update_frontmatter_fields c
                        [("status", YVal.s "validation_failed")])) }
        let v2 := { v1 with dashboard_errors := (v1.dashboard_errors ++
                      [("approval_watcher",
                        "Validation failed: " ++ name ++ " — " ++ error_msg)]) }
        let v3 := { v2 with audit := (v2.audit ++
                      [hitlEntry "hitl_execution" "approval_watcher" approvedPath
                        parsed.action_type parsed.target "failure" (some error_msg)]) }
        (v3, approvedPath)
      else
        let v0 := if parsed.is_expired
          then { v with events := v.events ++ [Ev.warnExpired] }
          else v
        handle_approval_exec_phase cfg execF v0 it parsed

/-- `_handle_rejection` (lines 341-369). -/
def handle_rejection (v : AVault) (it : ScanItem) : AVault × String :=
  let name := it.id
  let action_type := overlayGetStr it "action_type" it.subject
  let target := overlayGetStr it "target" it.source
  let v1 := { v with rejected := (updateFileIn v.rejected name
                (fun c => update_frontmatter_fields c [("status", YVal.s "rejected")])) }
  let mv := move_to_done true v1.rejected v1.done name
  let donePath := "Done/" ++ (mv.dest.getD name)
  let v2 := { v1 with rejected := mv.src, done := mv.dst }
  let v3 := { v2 with audit := (v2.audit ++
                [hitlEntry "hitl_rejection" "human" donePath
                  action_type target "rejected" Option.none]) }
  let v4 := { v3 with
              activity := (v3.activity ++
                [("Rejected: " ++ action_type, "Target: " ++ target, "rejected")])
              pending_removed := (v3.pending_removed ++ [target])
              queue_count_updates := v3.queue_count_updates + 1 }
  (v4, donePath)

/-- `_PRIORITY_ORDER.get(str(priority), 3)`. -/
def priorityOrder (p : String) : Nat :=
  if p == "critical" then 0
  else if p == "high" then 1
  else if p == "medium" then 2
  else if p == "low" then 3
  else 3

/-- The sort key of `check_for_updates`. -/
def scanSortKey (x : ScanItem) : Nat × String :=
  (priorityOrder x.priority, x.received)

/-- Strict key comparison for the stable sort. -/
def scanKeyLT (a b : ScanItem) : Bool :=
  let ka := scanSortKey a
  let kb := scanSortKey b
  decide (ka.1 < kb.1) || (ka.1 == kb.1 && decide (ka.2 < kb.2))

/-- Stable insertion (element goes before the first strictly greater
key), modelling Python `list.sort`. -/
def insertScanItem (x : ScanItem) : List ScanItem → List ScanItem
  | [] => [x]
  | y :: ys => if scanKeyLT x y then x :: y :: ys else y :: insertScanItem x ys

/-- Stable sort by `(priority rank, received)`. -/
def sortScanItems (l : List ScanItem) : List ScanItem :=
  l.foldr insertScanItem []

/-- `glob("ACTION_*.md")`. -/
def isActionFile (nm : String) : Bool :=
  nm.data.take 7 == "ACTION_".data && nm.data.reverse.take 3 == ".md".data.reverse

/-- Build one scan item from a file (lines 156-180).  `ctime` is the ISO
rendering of the file creation time (the `received` fallback). -/
def scanItemOf (folder : String) (ctime : String) (p : String × FileContent) : ScanItem :=
  let fm := read_frontmatter p.2
  { id := p.1
    folder := folder
    source := pyStr (pyGetD fm "target" (.s "unknown"))
    subject := pyStr (pyGetD fm "action_type" (.s "unknown"))
    priority := pyStr (pyGetD fm "priority" (.s "medium"))
    received := pyStr (pyGetD fm "received" (.s ctime))
    fm := fm }

/-- `check_for_updates` in live mode (lines 131-188): `ACTION_*.md`
files of `Approved/` then `Rejected/`, sorted by priority rank then
received timestamp. -/
def approval_check_for_updates (v : AVault) (ctimeOf : String → String) : List ScanItem :=
  sortScanItems
    (((v.approved.filter (fun p => isActionFile p.1)).map
        (fun p => scanItemOf "Approved" (ctimeOf p.1) p))
      ++ ((v.rejected.filter (fun p => isActionFile p.1)).map
        (fun p => scanItemOf "Rejected" (ctimeOf p.1) p)))

/-- Watcher state for the approval watcher cycle. -/
structure ApprovalState where
  vault : AVault
  ids : List String
  stateFile : StateFile

/-- The inherited `run_once` loop specialized to `ApprovalWatcher`:
`create_action_file` dispatches on the item folder; the handlers model
successful I/O and so never raise; each processed item is then
`mark_processed` and one `watcher_detect` audit entry is appended. -/
def approvalRunOnceGo (cfg : ApprovalCfg) (now : Int) (execF : Nat → StubResult) :
    ApprovalState → List ScanItem → ApprovalState × List String
  | st, [] => (st, [])
  | st, it :: rest =>
    if should_process st.ids it.id then
      let hr := if it.folder == "Approved"
        then handle_approval cfg now execF st.vault it
        else handle_rejection st.vault it
      let ids1 := mark_processed st.ids it.id
      let baseItem : Item :=
        { id := it.id
          itemType := if it.folder == "Approved"
            then "approval_execution" else "approval_rejection"
          source := it.source
          subject := it.subject }
      let v1 := { hr.1 with audit := (hr.1.audit ++
                    [watcherDetectEntry "approval" false baseItem hr.2]) }
      let st1 : ApprovalState :=
        { vault := v1, ids := ids1, stateFile := save_state ids1 }
      let out := approvalRunOnceGo cfg now execF st1 rest
      (out.1, hr.2 :: out.2)
    else
      approvalRunOnceGo cfg now execF st rest

/-- One full approval-watcher cycle (`run_once` over the scan result). -/
def approval_run_once (cfg : ApprovalCfg) (now : Int) (execF : Nat → StubResult)
    (ctimeOf : String → String) (st : ApprovalState) : ApprovalState × List String :=
  approvalRunOnceGo cfg now execF st (approval_check_for_updates st.vault ctimeOf)

/-! ## Staleness sweep (`check_stale_approvals`, lines 375-438) -/

/-- A file of `Pending_Approval/` as the sweep sees it: name, content
and `st_mtime` in seconds. -/
structure PendingFile where
  name : String
  mtime : Int
  content : FileContent

/-- Side effects of the sweep, in program order. -/
inductive StaleEv where
  | flagSet (nm : String)
  | dashError (component msg : String)
  | warnLog (nm : String)
deriving Repr, DecidableEq

/-- Result of one sweep: files (with any flag updates), the returned
stale list, and the emitted events. -/
structure SweepOut where
  pending : List PendingFile
  stale : List String
  events : List StaleEv

/-- `check_stale_approvals`: for each `*.md` file, a file already
flagged `stale: true` joins the stale list with no further action;
otherwise, if its age is at least `expiry_hours`, the flag is written
first, then one dashboard error and one warning are emitted.  No file
is ever moved or auto-rejected. -/
def check_stale_approvals (expiry_hours : Nat) (now : Int) :
    List PendingFile → SweepOut
  | [] => { pending := [], stale := [], events := [] }
  | f :: rest =>
    let r := check_stale_approvals expiry_hours now rest
    if f.name == ".gitkeep" then
      { pending := f :: r.pending, stale := r.stale, events := r.events }
    else
      let fm := read_frontmatter f.content
      if YVal.beq (pyGet fm "stale") (.b true) then
        { pending := f :: r.pending, stale := f.name :: r.stale, events := r.events }
      else
        let age := now - f.mtime
        if decide ((expiry_hours : Int) * 3600 ≤ age) then
          let action_type := pyStr (pyGetD fm "action_type" (.s "unknown"))
          let target := pyStr (pyGetD fm "target" (.s f.name))
          let hours_waiting := age / 3600
          let f1 : PendingFile :=
            { f with content := (update_frontmatter_fields f.content
                [("stale", YVal.b true)]) }
          { pending := f1 :: r.pending
            stale := f.name :: r.stale
            events := (StaleEv.flagSet f.name
              :: StaleEv.dashError "approval_watcher"
                  ("Stale approval: " ++ action_type ++ " for " ++ target
                    ++ " (waiting " ++ toString hours_waiting ++ "h)")
              :: StaleEv.warnLog f.name
              :: r.events) }
        else
          { pending := f :: r.pending, stale := r.stale, events := r.events }

/-- Whether the content has a closed frontmatter delimiter block, i.e.
the cases in which `_update_frontmatter_fields` actually rewrites the
file rather than silently returning. -/
def hasClosedFront : FileContent → Bool
  | .badYaml _ _ => true
  | .yaml _ _ => true
  | _ => false

/-- Dashboard-error events of a sweep. -/
def isDashEv : StaleEv → Bool
  | .dashError _ _ => true
  | _ => false

/-! ## Concrete scenario inputs -/

/-- The sample `action_payload` mapping. -/
def samplePayload : List (String × YVal) :=
  [("tool", YVal.s "send_email"),
   ("params", YVal.m
     [("to", YVal.s "a@b.com"),
      ("subject", YVal.s "Weekly report"),
      ("body", YVal.s "Report attached.")])]

/-- A well-formed `send_email` approval request frontmatter
(`action_type=send_email`, `target=a@b.com`, valid body). -/
def sampleFM : List (String × YVal) :=
  [("type", YVal.s "approval_request"),
   ("action_type", YVal.s "send_email"),
   ("target", YVal.s "a@b.com"),
   ("priority", YVal.s "high"),
   ("status", YVal.s "approved"),
   ("received", YVal.s "100"),
   ("action_payload", YVal.m samplePayload)]

/-- What `parse_approval_file` returns on the sample file. -/
def sampleParsed : ParsedAction :=
  { frontmatter := sampleFM
    action_type := "send_email"
    action_payload := samplePayload
    target := "a@b.com"
    priority := "high"
    source_plan := YVal.none
    source_task := YVal.none
    is_expired := false }

/-- A CLI stub (never consulted in dry-run mode). -/
def cliStubFail : List String → CliResult :=
  fun _ => { success := false, result := Option.none, error := Option.none }

/-- The sample frontmatter with an `expires` timestamp in the past. -/
def expiredFM : List (String × YVal) := sampleFM ++ [("expires", YVal.s "1")]

def expiredFile : FileContent := .yaml (.m expiredFM) "\nbody"

/-- What `parse_approval_file` returns on the expired file at time 5. -/
def expiredParsed : ParsedAction :=
  { frontmatter := expiredFM
    action_type := "send_email"
    action_payload := samplePayload
    target := "a@b.com"
    priority := "high"
    source_plan := YVal.none
    source_task := YVal.none
    is_expired := true }

/-- The sample approval file. -/
def sampleFile : FileContent := .yaml (.m sampleFM) "\n\n## Approval Request\n"

def sampleName : String := "ACTION_send_email_001.md"

/-- Executor stub returning `{success: true}`. -/
def okStub : Nat → StubResult := fun _ => { success := true, error := Option.none }

/-- Executor stub that always fails. -/
def failStub : Nat → StubResult := fun _ => { success := false, error := some "boom" }

/-- An empty vault except for the sample file in `Approved/`. -/
def sampleVault : AVault :=
  { approved := [(sampleName, sampleFile)], rejected := [], done := []
    audit := [], dashboard_errors := [], activity := [], pending_removed := []
    queue_count_updates := 0, events := [] }

def sampleApprovalState : ApprovalState :=
  { vault := sampleVault, ids := [], stateFile := .absent }

def sampleCfg : ApprovalCfg := { max_retries := 2, retry_delay := 30, expiry_hours := 24 }

/-- One full approval-watcher cycle on the sample vault with a
succeeding executor stub. -/
def sampleCycle : ApprovalState × List String :=
  approval_run_once sampleCfg 0 okStub (fun _ => "50") sampleApprovalState

/-- The scan item `check_for_updates` builds for the sample file. -/
def sampleItem : ScanItem := scanItemOf "Approved" "50" (sampleName, sampleFile)

/-- Vault holding the expired sample file in `Approved/`. -/
def expiredVault : AVault :=
  { approved := [(sampleName, expiredFile)], rejected := [], done := []
    audit := [], dashboard_errors := [], activity := [], pending_removed := []
    queue_count_updates := 0, events := [] }

def expiredItem : ScanItem := scanItemOf "Approved" "50" (sampleName, expiredFile)

/-- Two generic watcher items. -/
def itemA : Item := { id := "a", itemType := "email", source := "s1", subject := "x" }

def itemB : Item := { id := "b", itemType := "email", source := "s2", subject := "y" }

/-- A materializer raising a non-OSError exception on item `a` and
succeeding elsewhere. -/
def keyErrorMat : Item → MatResult :=
  fun it => if it.id == "a" then .otherRaise "KeyError: missing field"
    else .ok ("Needs_Action/" ++ it.id ++ ".md")

/-- A materializer failing with `OSError` on item `a` and succeeding
elsewhere. -/
def osFailMat : Item → MatResult :=
  fun it => if it.id == "a" then .osError "disk full"
    else .ok ("Needs_Action/" ++ it.id ++ ".md")

/-- A success-only materializer path function. -/
def pathOfSample : Item → String := fun it => "Needs_Action/" ++ it.id ++ ".md"

def emptyWState : WState := { ids := [], stateFile := .absent, audit := [] }

/-- A pending-approval file with well-formed frontmatter, last touched
at time 0. -/
def pendingGood : PendingFile :=
  { name := "APPROVAL_send_email_9.md", mtime := 0
    content := .yaml (.m [("action_type", YVal.s "send_email"),
      ("target", YVal.s "a@b.com")]) "\nbody" }

/-- A pending `.md` file with no frontmatter block at all. -/
def pendingNoFront : PendingFile :=
  { name := "note.md", mtime := 0, content := .noFront "just a note" }

/-- 25 hours after the pending files were last touched. -/
def sweepNow : Int := 25 * 3600

/-- Dashboard notifications emitted by two consecutive sweeps (with
`expiry_hours = 24`, 25 hours later) over a single pending file. -/
def twoSweepDashCount (f : PendingFile) : Nat :=
  (((check_stale_approvals 24 sweepNow [f]).events
    ++ (check_stale_approvals 24 sweepNow
        (check_stale_approvals 24 sweepNow [f]).pending).events).filter isDashEv).length

/-! # Theorems -/

/-! ## Helper lemmas: decimal rendering and collision naming -/

theorem digitChar_inj : ∀ a < 10, ∀ b < 10,
    Nat.digitChar a = Nat.digitChar b → a = b := by decide

theorem decDigits_eq_nil_iff (n : Nat) : decDigits n = [] ↔ n = 0 := by
  cases n with
  | zero => simp [decDigits]
  | succ m => simp [decDigits]

theorem decDigits_inj (n : Nat) : ∀ m : Nat, decDigits n = decDigits m → n = m := by
  induction n using Nat.strong_induction_on with
  | _ n ih =>
    intro m h
    match n, m with
    | 0, 0 => rfl
    | 0, m + 1 => simp [decDigits] at h
    | n + 1, 0 => simp [decDigits] at h
    | n + 1, m + 1 =>
      simp only [decDigits, List.cons.injEq] at h
      obtain ⟨h1, h2⟩ := h
      have hmod : (n + 1) % 10 = (m + 1) % 10 :=
        digitChar_inj _ (Nat.mod_lt _ (by omega)) _ (Nat.mod_lt _ (by omega)) h1
      have hdivlt : (n + 1) / 10 < n + 1 := Nat.div_lt_self (Nat.succ_pos n) (by omega)
      have hdiv : (n + 1) / 10 = (m + 1) / 10 := ih _ hdivlt _ h2
      omega

theorem decDigits_singleton_zero (n : Nat) (h : decDigits n = ['0']) : n = 0 := by
  cases n with
  | zero => rfl
  | succ m =>
    simp only [decDigits, List.cons.injEq] at h
    obtain ⟨h1, h2⟩ := h
    have h0 : Nat.digitChar 0 = '0' := by decide
    have hmod : (m + 1) % 10 = 0 :=
      digitChar_inj _ (Nat.mod_lt _ (by omega)) 0 (by omega) (h1.trans h0.symm)
    have hdiv : (m + 1) / 10 = 0 := (decDigits_eq_nil_iff _).mp h2
    omega

theorem natStr_inj : Function.Injective natStr := by
  intro a b h
  unfold natStr at h
  by_cases ha : a = 0 <;> by_cases hb : b = 0 <;> simp [ha, hb] at h ⊢
  · exfalso
    have hdata : (String.mk ['0']).data = (String.mk (decDigits b).reverse).data := by
      rw [show String.mk ['0'] = "0" from rfl]; exact congrArg String.data h
    have : ['0'] = (decDigits b).reverse := hdata
    have : (decDigits b) = ['0'] := by
      have := congrArg List.reverse this
      simpa using this.symm
    exact hb (decDigits_singleton_zero b this)
  · exfalso
    have hdata : (String.mk (decDigits a).reverse).data = (String.mk ['0']).data := by
      rw [show String.mk ['0'] = "0" from rfl]; exact congrArg String.data h
    have : (decDigits a).reverse = ['0'] := hdata
    have : (decDigits a) = ['0'] := by
      have := congrArg List.reverse this
      simpa using this
    exact ha (decDigits_singleton_zero a this)
  · have hdata : (decDigits a).reverse = (decDigits b).reverse :=
      congrArg String.data h
    have : decDigits a = decDigits b := by
      have := congrArg List.reverse hdata
      simpa using this
    exact decDigits_inj a b this

theorem suffixName_inj (stem ext : String) : Function.Injective (suffixName stem ext) := by
  intro j k h
  have hd := congrArg String.data h
  simp only [suffixName, String.data_append] at hd
  have h1 := List.append_cancel_right hd
  have h2 := List.append_cancel_left h1
  exact natStr_inj (by apply String.ext; exact h2)

theorem exists_free_suffix (names : List String) (stem ext : String) (k : Nat) :
    ∃ i ≤ names.length, (suffixName stem ext (k + i)) ∉ names := by
  by_contra hc
  push_neg at hc
  have hsub : ((List.range (names.length + 1)).map (fun i => suffixName stem ext (k + i)))
      ⊆ names := by
    intro x hx
    simp only [List.mem_map, List.mem_range] at hx
    obtain ⟨i, hi, rfl⟩ := hx
    exact hc i (by omega)
  have hnd : ((List.range (names.length + 1)).map (fun i => suffixName stem ext (k + i))).Nodup := by
    refine List.Nodup.map ?_ (List.nodup_range _)
    intro a c hac
    have := suffixName_inj stem ext hac
    omega
  have hcard1 : ((List.range (names.length + 1)).map
      (fun i => suffixName stem ext (k + i))).toFinset.card = names.length + 1 := by
    rw [List.toFinset_card_of_nodup hnd]
    simp
  have hcard2 : ((List.range (names.length + 1)).map
      (fun i => suffixName stem ext (k + i))).toFinset.card ≤ names.length := by
    calc _ ≤ names.toFinset.card := by
            apply Finset.card_le_card
            intro x hx
            rw [List.mem_toFinset] at hx ⊢
            exact hsub hx
      _ ≤ names.length := names.toFinset_card_le
  omega

theorem firstFree_shape (names : List String) (stem ext : String) :
    ∀ fuel k, ∃ j, k ≤ j ∧ firstFree names stem ext k fuel = suffixName stem ext j := by
  intro fuel
  induction fuel with
  | zero => intro k; exact ⟨k, le_refl k, rfl⟩
  | succ f ih =>
    intro k
    simp only [firstFree]
    by_cases hmem : names.contains (suffixName stem ext k)
    · simp only [hmem, if_true]
      obtain ⟨j, hj, he⟩ := ih (k + 1)
      exact ⟨j, by omega, he⟩
    · simp only [hmem, if_false]
      exact ⟨k, le_refl k, rfl⟩

theorem firstFree_not_mem (names : List String) (stem ext : String) :
    ∀ fuel k, (∃ i < fuel, (suffixName stem ext (k + i)) ∉ names) →
    firstFree names stem ext k fuel ∉ names := by
  intro fuel
  induction fuel with
  | zero => intro k h; obtain ⟨i, hi, _⟩ := h; omega
  | succ f ih =>
    intro k h
    simp only [firstFree]
    by_cases hmem : names.contains (suffixName stem ext k)
    · simp only [hmem, if_true]
      apply ih
      obtain ⟨i, hi, hfree⟩ := h
      have hi0 : i ≠ 0 := by
        intro h0
        rw [h0, Nat.add_zero] at hfree
        exact hfree (by simpa using hmem)
      exact ⟨i - 1, by omega, by
        have : k + 1 + (i - 1) = k + i := by omega
        rw [this]; exact hfree⟩
    · simp only [hmem, if_false]
      simpa using hmem

theorem candidateName_not_mem (names : List String) (nm : String) :
    candidateName names nm ∉ names := by
  unfold candidateName
  by_cases hmem : names.contains nm
  · simp only [hmem, if_true]
    apply firstFree_not_mem
    obtain ⟨i, hi, hfree⟩ := exists_free_suffix names (splitStemSuffix nm).1 (splitStemSuffix nm).2 1
    exact ⟨i, by omega, hfree⟩
  · simp only [hmem, if_false]
    simpa using hmem

theorem candidateName_collision_shape (names : List String) (nm : String)
    (h : nm ∈ names) :
    ∃ j, 1 ≤ j ∧ candidateName names nm
      = (splitStemSuffix nm).1 ++ "_" ++ natStr j ++ (splitStemSuffix nm).2 := by
  unfold candidateName
  have hmem : names.contains nm := by simpa using h
  simp only [hmem, if_true]
  obtain ⟨j, hj, he⟩ := firstFree_shape names (splitStemSuffix nm).1 (splitStemSuffix nm).2
    (names.length + 1) 1
  exact ⟨j, hj, he⟩

/-! ## Association-list and file-map lemmas -/

theorem lookupKV_upsertKV (kvs : List (String × YVal)) (k : String) (v : YVal) :
    lookupKV (upsertKV kvs k v) k = some v := by
  induction kvs with
  | nil => simp [upsertKV, lookupKV, List.find?]
  | cons p t ih =>
    unfold upsertKV at ih ⊢
    by_cases hp : p.1 == k
    · rw [if_pos (by simp [List.any_cons, hp])]
      simp [lookupKV, List.find?, hp]
    · by_cases ht : t.any (fun q => q.1 == k)
      · rw [if_pos (by simp [List.any_cons, hp, ht])]
        rw [if_pos ht] at ih
        simpa [lookupKV, List.find?, hp] using ih
      · rw [if_neg (by simp [List.any_cons, hp, ht])]
        rw [if_neg ht] at ih
        simpa [lookupKV, List.find?, hp] using ih

theorem lookupFile_updateFileIn (fs : FileMap) (nm : String) (f : FileContent → FileContent) :
    lookupFile (updateFileIn fs nm f) nm = (lookupFile fs nm).map f := by
  induction fs with
  | nil => rfl
  | cons p t ih =>
    by_cases h : p.1 == nm
    · simp [updateFileIn, lookupFile, List.find?, h]
    · simpa [updateFileIn, lookupFile, List.find?, h] using ih

/-! ## C4: move semantics -/

/-- Claim C4: moving a file to `Done/` copies before deleting, so a
failing copy leaves the source present and unchanged; a collision at
the destination is resolved by a numeric `_1`, `_2`, … suffix on the
stem, and the chosen destination name never coincides with an existing
file (no overwrite). -/
theorem move_to_done_copy_then_delete (src dst : FileMap) (nm : String) (c : FileContent)
    (hsrc : lookupFile src nm = some c) :
    (move_to_done false src dst nm).src = src
    ∧ (move_to_done false src dst nm).dest = Option.none
    ∧ (move_to_done true src dst nm).dst
        = dst ++ [(candidateName (dst.map (fun p => p.1)) nm, c)]
    ∧ candidateName (dst.map (fun p => p.1)) nm ∉ dst.map (fun p => p.1)
    ∧ (nm ∈ dst.map (fun p => p.1) →
        ∃ j, 1 ≤ j ∧ candidateName (dst.map (fun p => p.1)) nm
          = (splitStemSuffix nm).1 ++ "_" ++ natStr j ++ (splitStemSuffix nm).2) := by
  refine ⟨?_, ?_, ?_, candidateName_not_mem _ _, candidateName_collision_shape _ _⟩
  · simp [move_to_done, hsrc]
  · simp [move_to_done, hsrc]
  · simp [move_to_done, hsrc]

/-- Witness for `move_to_done_copy_then_delete`: the sample file, with a
same-named file already in `Done/`. -/
theorem move_to_done_copy_then_delete_witness :
    (move_to_done false [(sampleName, sampleFile)]
        [(sampleName, FileContent.noFront "old")] sampleName).src
      = [(sampleName, sampleFile)]
    ∧ candidateName [sampleName] sampleName ∉ [sampleName] := by
  have h := move_to_done_copy_then_delete [(sampleName, sampleFile)]
    [(sampleName, FileContent.noFront "old")] sampleName sampleFile rfl
  exact ⟨h.1, by simpa using h.2.2.2.1⟩

/-! ## C10: dry-run default and simulation -/

theorem simulate_execution_success (a : String) (ps : List (String × YVal)) :
    (simulate_execution a ps).success = true := by
  unfold simulate_execution
  split_ifs <;> rfl

/-- Claim C10: with the `DRY_RUN` environment variable unset,
`is_dry_run` returns true; and in dry-run mode `execute` hands no
command to `subprocess.run` and, for a file that parses and validates,
returns a simulated result with `success = true`. -/
theorem dry_run_default_and_simulated :
    is_dry_run Option.none = true
    ∧ ∀ (now : Int) (runCli : List String → CliResult) (cli fn : String)
        (c : FileContent) (parsed : ParsedAction),
        parse_approval_file now c = .ok parsed →
        validate_action parsed = [] →
        (executeAction true now runCli cli fn c).2.2 = []
        ∧ (executeAction true now runCli cli fn c).1.success = true := by
  refine ⟨by decide, ?_⟩
  intro now runCli cli fn c parsed hp hv
  unfold executeAction
  rw [hp]
  simp [hv, simulate_execution_success]

/-- Witness for `dry_run_default_and_simulated` at the sample file. -/
theorem dry_run_default_and_simulated_witness :
    (executeAction true 0 cliStubFail "cli.ts" sampleName sampleFile).2.2 = []
    ∧ (executeAction true 0 cliStubFail "cli.ts" sampleName sampleFile).1.success = true :=
  (dry_run_default_and_simulated).2 0 cliStubFail "cli.ts" sampleName sampleFile
    sampleParsed rfl rfl

/-! ## Handler-unfolding helpers -/

/-- On a file that parses and validates, `_handle_approval` reduces to
the execution phase, preceded by the expiry warning when applicable. -/
theorem handle_approval_ok_unfold (cfg : ApprovalCfg) (now : Int)
    (execF : Nat → StubResult) (v : AVault) (it : ScanItem) (content : FileContent)
    (parsed : ParsedAction)
    (hfile : lookupFile v.approved it.id = some content)
    (hp : parse_approval_file now content = .ok parsed)
    (hv : validate_action parsed = []) :
    handle_approval cfg now execF v it
      = handle_approval_exec_phase cfg execF
          (if parsed.is_expired
            then { v with events := v.events ++ [Ev.warnExpired] } else v)
          it parsed := by
  simp [handle_approval, hfile, hp, hv]

/-- The execution phase appends exactly the retry trace to the event
log, in both the success and the exhausted-retries branch. -/
theorem handle_approval_exec_phase_events (cfg : ApprovalCfg)
    (execF : Nat → StubResult) (v : AVault) (it : ScanItem) (parsed : ParsedAction) :
    (handle_approval_exec_phase cfg execF v it parsed).1.events
      = v.events ++ (retryExec execF cfg.max_retries cfg.retry_delay).2 := by
  unfold handle_approval_exec_phase
  by_cases h : (retryExec execF cfg.max_retries cfg.retry_delay).1.success <;>
    simp [h]

/-! ## Retry-loop lemmas -/

theorem retryExecGo_count_le (execF : Nat → StubResult) (d : Nat) :
    ∀ remaining attempt,
      ((retryExecGo execF d attempt remaining).2.countP
        (fun e => e == Ev.execCall)) ≤ remaining + 1 := by
  intro remaining
  induction remaining with
  | zero => intro attempt; simp [retryExecGo, List.countP_cons]
  | succ r ih =>
    intro attempt
    unfold retryExecGo
    by_cases h : (execF attempt).success
    · simp [h, List.countP_cons]
    · simp only [h, Bool.false_eq_true, if_false, List.countP_cons]
      have hx := ih (attempt + 1)
      have h1 : (Ev.sleepSecs d == Ev.execCall) = false := rfl
      have h2 : (Ev.execCall == Ev.execCall) = true := rfl
      simp [List.countP_cons, h1, h2] at hx ⊢
      omega

theorem retryExecGo_all_fail (execF : Nat → StubResult) (d : Nat) :
    ∀ remaining attempt,
      (∀ k, attempt ≤ k → k ≤ attempt + remaining → (execF k).success = false) →
      (retryExecGo execF d attempt remaining).2
        = (List.replicate remaining [Ev.execCall, Ev.sleepSecs d]).flatten
            ++ [Ev.execCall] := by
  intro remaining
  induction remaining with
  | zero => intro attempt h; simp [retryExecGo]
  | succ r ih =>
    intro attempt h
    have hfail : (execF attempt).success = false := h attempt (le_refl _) (by omega)
    unfold retryExecGo
    simp only [hfail, Bool.false_eq_true, if_false]
    rw [ih (attempt + 1) (fun k hk1 hk2 => h k (by omega) (by omega))]
    simp [List.replicate_succ]

theorem retryExecGo_first_success (execF : Nat → StubResult) (d : Nat) :
    ∀ j remaining attempt, j ≤ remaining →
      (execF (attempt + j)).success = true →
      (∀ i, i < j → (execF (attempt + i)).success = false) →
      (retryExecGo execF d attempt remaining).1 = execF (attempt + j)
      ∧ (retryExecGo execF d attempt remaining).2
        = (List.replicate j [Ev.execCall, Ev.sleepSecs d]).flatten ++ [Ev.execCall] := by
  intro j
  induction j with
  | zero =>
    intro remaining attempt _ hs _
    rw [Nat.add_zero] at hs
    cases remaining with
    | zero => exact ⟨by simp [retryExecGo], by simp [retryExecGo]⟩
    | succ r =>
      unfold retryExecGo
      simp [hs]
  | succ jj ih =>
    intro remaining attempt hle hs hb
    cases remaining with
    | zero => omega
    | succ r =>
      have hfail : (execF attempt).success = false := by
        have := hb 0 (by omega)
        simpa using this
      have harith : attempt + 1 + jj = attempt + (jj + 1) := by omega
      have ihx := ih r (attempt + 1) (by omega) (by rw [harith]; exact hs)
        (fun i hi => by
          have := hb (i + 1) (by omega)
          have e : attempt + 1 + i = attempt + (i + 1) := by omega
          rw [e]; exact this)
      unfold retryExecGo
      simp only [hfail, Bool.false_eq_true, if_false]
      refine ⟨by rw [ihx.1, harith], ?_⟩
      rw [ihx.2]
      simp [List.replicate_succ]

theorem countP_retry_pattern (d N : Nat) :
    ((List.replicate N [Ev.execCall, Ev.sleepSecs d]).flatten ++ [Ev.execCall]).countP
      (fun e => e == Ev.execCall) = N + 1 := by
  induction N with
  | zero => rfl
  | succ n ih =>
    have hstep : ((List.replicate (n + 1) [Ev.execCall, Ev.sleepSecs d]).flatten
          ++ [Ev.execCall])
        = [Ev.execCall, Ev.sleepSecs d]
          ++ ((List.replicate n [Ev.execCall, Ev.sleepSecs d]).flatten ++ [Ev.execCall]) := by
      simp [List.replicate_succ]
    rw [hstep, List.countP_append, ih]
    have hone : ([Ev.execCall, Ev.sleepSecs d]).countP (fun e => e == Ev.execCall) = 1 := rfl
    rw [hone]
    omega

/-! ## C2: retry bound is exact -/

/-- Claim C2: for an approved item that parses and validates, the
executor is called at most `max_retries + 1` times and stops at the
first success; against a continuously failing executor it is called
exactly `max_retries + 1` times, with a `retry_delay`-second sleep
between consecutive attempts and no sleep after the final attempt (the
trace ends in a call). -/
theorem retry_bound_exact (cfg : ApprovalCfg) (now : Int) (execF : Nat → StubResult)
    (v : AVault) (it : ScanItem) (content : FileContent) (parsed : ParsedAction)
    (hfile : lookupFile v.approved it.id = some content)
    (hp : parse_approval_file now content = .ok parsed)
    (hv : validate_action parsed = []) :
    ∃ evs, (handle_approval cfg now execF v it).1.events
        = v.events ++ (if parsed.is_expired then [Ev.warnExpired] else []) ++ evs
      ∧ evs = (retryExec execF cfg.max_retries cfg.retry_delay).2
      ∧ evs.countP (fun e => e == Ev.execCall) ≤ cfg.max_retries + 1
      ∧ ((∀ k, k ≤ cfg.max_retries → (execF k).success = false) →
          evs = (List.replicate cfg.max_retries
              [Ev.execCall, Ev.sleepSecs cfg.retry_delay]).flatten ++ [Ev.execCall]
          ∧ evs.countP (fun e => e == Ev.execCall) = cfg.max_retries + 1)
      ∧ (∀ j, j ≤ cfg.max_retries → (execF j).success = true →
          (∀ i, i < j → (execF i).success = false) →
          evs = (List.replicate j
              [Ev.execCall, Ev.sleepSecs cfg.retry_delay]).flatten ++ [Ev.execCall]
          ∧ evs.countP (fun e => e == Ev.execCall) = j + 1) := by
  refine ⟨(retryExec execF cfg.max_retries cfg.retry_delay).2, ?_, rfl, ?_, ?_, ?_⟩
  · rw [handle_approval_ok_unfold cfg now execF v it content parsed hfile hp hv,
      handle_approval_exec_phase_events]
    by_cases h : parsed.is_expired <;> simp [h]
  · exact retryExecGo_count_le execF cfg.retry_delay cfg.max_retries 0
  · intro hfailall
    have h : (retryExec execF cfg.max_retries cfg.retry_delay).2
        = (List.replicate cfg.max_retries
            [Ev.execCall, Ev.sleepSecs cfg.retry_delay]).flatten ++ [Ev.execCall] :=
      retryExecGo_all_fail execF cfg.retry_delay cfg.max_retries 0
        (fun k _ hk2 => hfailall k (by omega))
    exact ⟨h, by rw [h]; exact countP_retry_pattern _ _⟩
  · intro j hj hs hb
    have h : (retryExec execF cfg.max_retries cfg.retry_delay).2
        = (List.replicate j
            [Ev.execCall, Ev.sleepSecs cfg.retry_delay]).flatten ++ [Ev.execCall] :=
      (retryExecGo_first_success execF cfg.retry_delay j cfg.max_retries 0 hj
        (by simpa using hs) (fun i hi => by simpa using hb i hi)).2
    exact ⟨h, by rw [h]; exact countP_retry_pattern _ _⟩

/-- Witness for `retry_bound_exact`: the sample file against the
always-failing executor stub with `max_retries = 2`. -/
theorem retry_bound_exact_witness :
    ∃ evs, (handle_approval sampleCfg 0 failStub sampleVault sampleItem).1.events
        = sampleVault.events
          ++ (if sampleParsed.is_expired then [Ev.warnExpired] else []) ++ evs
      ∧ evs = (retryExec failStub sampleCfg.max_retries sampleCfg.retry_delay).2
      ∧ evs.countP (fun e => e == Ev.execCall) ≤ sampleCfg.max_retries + 1
      ∧ ((∀ k, k ≤ sampleCfg.max_retries → (failStub k).success = false) →
          evs = (List.replicate sampleCfg.max_retries
              [Ev.execCall, Ev.sleepSecs sampleCfg.retry_delay]).flatten ++ [Ev.execCall]
          ∧ evs.countP (fun e => e == Ev.execCall) = sampleCfg.max_retries + 1)
      ∧ (∀ j, j ≤ sampleCfg.max_retries → (failStub j).success = true →
          (∀ i, i < j → (failStub i).success = false) →
          evs = (List.replicate j
              [Ev.execCall, Ev.sleepSecs sampleCfg.retry_delay]).flatten ++ [Ev.execCall]
          ∧ evs.countP (fun e => e == Ev.execCall) = j + 1) :=
  retry_bound_exact sampleCfg 0 failStub sampleVault sampleItem sampleFile
    sampleParsed rfl rfl rfl

/-! ## C6: expiry never blocks execution -/

/-- Claim C6: an expired `expires` timestamp never blocks execution.
`validate_action` returns no expiry-related error — its result is
independent of `is_expired` — and for a request that parses and
validates, the handler runs the same execution phase on the same data
as in the non-expired case; the only difference is the log warning. -/
theorem expiry_never_blocks :
    (∀ (parsed : ParsedAction) (b : Bool),
      validate_action { parsed with is_expired := b } = validate_action parsed)
    ∧ (∀ (cfg : ApprovalCfg) (execF : Nat → StubResult) (v : AVault)
        (it : ScanItem) (parsed : ParsedAction) (b : Bool),
        handle_approval_exec_phase cfg execF v it { parsed with is_expired := b }
          = handle_approval_exec_phase cfg execF v it parsed)
    ∧ (∀ (cfg : ApprovalCfg) (now : Int) (execF : Nat → StubResult) (v : AVault)
        (it : ScanItem) (content : FileContent) (parsed : ParsedAction),
        lookupFile v.approved it.id = some content →
        parse_approval_file now content = .ok parsed →
        validate_action parsed = [] →
        handle_approval cfg now execF v it
          = handle_approval_exec_phase cfg execF
              (if parsed.is_expired
                then { v with events := v.events ++ [Ev.warnExpired] } else v)
              it parsed) := by
  refine ⟨?_, ?_, ?_⟩
  · intro parsed b; cases parsed; rfl
  · intro cfg execF v it parsed b; cases parsed; rfl
  · intro cfg now execF v it content parsed hfile hp hv
    exact handle_approval_ok_unfold cfg now execF v it content parsed hfile hp hv

/-- Witness for `expiry_never_blocks` at the expired sample file. -/
theorem expiry_never_blocks_witness :
    validate_action { sampleParsed with is_expired := true } = validate_action sampleParsed
    ∧ handle_approval sampleCfg 5 okStub expiredVault expiredItem
        = handle_approval_exec_phase sampleCfg okStub
            { expiredVault with events := expiredVault.events ++ [Ev.warnExpired] }
            expiredItem expiredParsed := by
  refine ⟨(expiry_never_blocks).1 sampleParsed true, ?_⟩
  have h := (expiry_never_blocks).2.2 sampleCfg 5 okStub expiredVault expiredItem
    expiredFile expiredParsed rfl rfl rfl
  rw [h]
  rfl

/-! ## C9: parsing is total at the public boundary -/

/-- Claim C9: malformed input never escapes the parse boundary as an
exception.  (1) any parse failure is returned by `execute` as a
structured result with `success = false` and the error message; (2)
each malformed class — unreadable file, missing or unclosed
frontmatter, invalid YAML, non-mapping frontmatter, wrong `type`,
missing `action_payload` / `tool` / `params` — yields a parse error;
(3) on a parse failure the approval handler annotates the file with
`status: parse_failed`, leaves it in `Approved/` and touches nothing in
`Done/`. -/
theorem parse_total_structured_failure :
    (∀ (dry : Bool) (now : Int) (runCli : List String → CliResult) (cli fn : String)
        (c : FileContent) (e : String),
        parse_approval_file now c = .error e →
        executeAction dry now runCli cli fn c
          = ({ success := false, action_type := "unknown", target := fn
               result := Option.none, dry_run := dry, error := some e }, [], []))
    ∧ (∀ (now : Int) (msg body : String),
        parse_approval_file now (.unreadable msg) = .error ("Cannot read file: " ++ msg)
        ∧ parse_approval_file now (.noFront body) = .error "File has no YAML frontmatter"
        ∧ parse_approval_file now (.unclosed body) = .error "Frontmatter not closed with ---"
        ∧ parse_approval_file now (.badYaml msg body)
            = .error ("Malformed YAML frontmatter: " ++ msg))
    ∧ (∀ (now : Int) (s body : String),
        parse_approval_file now (.yaml (.s s) body) = .error "Frontmatter is not a YAML mapping")
    ∧ (∀ (now : Int) (fm : List (String × YVal)) (body : String),
        YVal.beq (pyGet fm "type") (.s "approval_request") = false →
        parse_approval_file now (.yaml (.m fm) body)
          = .error ("File type must be \u0027approval_request\u0027, got: "
              ++ pyRepr (pyGet fm "type")))
    ∧ (∀ (now : Int) (fm : List (String × YVal)) (body : String),
        YVal.beq (pyGet fm "type") (.s "approval_request") = true →
        (pyGet fm "action_payload").truthy = false →
        parse_approval_file now (.yaml (.m fm) body)
          = .error "Missing required field: action_payload")
    ∧ (∀ (now : Int) (fm payload : List (String × YVal)) (body : String),
        YVal.beq (pyGet fm "type") (.s "approval_request") = true →
        pyGet fm "action_payload" = YVal.m payload →
        (YVal.m payload).truthy = true →
        (pyGet payload "tool").truthy = false →
        parse_approval_file now (.yaml (.m fm) body)
          = .error "Missing required field: action_payload.tool")
    ∧ (∀ (now : Int) (fm payload : List (String × YVal)) (body : String),
        YVal.beq (pyGet fm "type") (.s "approval_request") = true →
        pyGet fm "action_payload" = YVal.m payload →
        (YVal.m payload).truthy = true →
        (pyGet payload "tool").truthy = true →
        pyGet payload "params" = YVal.none →
        parse_approval_file now (.yaml (.m fm) body)
          = .error "Missing required field: action_payload.params")
    ∧ (∀ (cfg : ApprovalCfg) (now : Int) (execF : Nat → StubResult) (v : AVault)
        (it : ScanItem) (content : FileContent) (e : String),
        lookupFile v.approved it.id = some content →
        parse_approval_file now content = .error e →
        (handle_approval cfg now execF v it).2 = "Approved/" ++ it.id
        ∧ lookupFile (handle_approval cfg now execF v it).1.approved it.id
            = some (update_frontmatter_fields content [("status", YVal.s "parse_failed")])
        ∧ (handle_approval cfg now execF v it).1.done = v.done) := by
  refine ⟨?_, ?_, ?_, ?_, ?_, ?_, ?_, ?_⟩
  · intro dry now runCli cli fn c e hp
    unfold executeAction
    rw [hp]
  · intro now msg body
    exact ⟨rfl, rfl, rfl, rfl⟩
  · intro now s body
    rfl
  · intro now fm body h
    unfold parse_approval_file
    simp [h]
  · intro now fm body h hpay
    unfold parse_approval_file
    simp [h, hpay]
  · intro now fm payload body h hpay htr htool
    unfold parse_approval_file
    simp [h, hpay, htr, htool]
  · intro now fm payload body h hpay htr htool hparams
    unfold parse_approval_file
    simp [h, hpay, htr, htool, hparams]
  · intro cfg now execF v it content e hfile hp
    refine ⟨?_, ?_, ?_⟩ <;> simp only [handle_approval, hfile, hp]
    · rw [lookupFile_updateFileIn, hfile]
      rfl

/-- Witness for `parse_total_structured_failure`: a file with no
frontmatter, going through `execute` and the approval handler. -/
theorem parse_total_structured_failure_witness :
    executeAction false 0 cliStubFail "cli.ts" "f.md" (.noFront "x")
      = ({ success := false, action_type := "unknown", target := "f.md"
           result := Option.none, dry_run := false
           error := some "File has no YAML frontmatter" }, [], [])
    ∧ (handle_approval sampleCfg 0 okStub
        { sampleVault with approved := [(sampleName, .noFront "x")] }
        { sampleItem with fm := [] }).1.done = [] := by
  constructor
  · exact (parse_total_structured_failure).1 false 0 cliStubFail "cli.ts" "f.md"
      (.noFront "x") "File has no YAML frontmatter" rfl
  · exact ((parse_total_structured_failure).2.2.2.2.2.2.2 sampleCfg 0 okStub
      { sampleVault with approved := [(sampleName, .noFront "x")] }
      { sampleItem with fm := [] } (.noFront "x") "File has no YAML frontmatter"
      rfl rfl).2.2

/-! ## Deduplication-state lemmas -/

theorem beqStr_comm (a b : String) : (a == b) = (b == a) := by
  simp only [beq_eq_decide]
  exact decide_eq_decide.mpr eq_comm

theorem contains_append_single (ids : List String) (b x : String) :
    (ids ++ [b]).contains x = (ids.contains x || (x == b)) := by
  induction ids with
  | nil => cases hxb : x == b <;> simp [List.contains, List.elem, hxb]
  | cons c cs ih =>
    cases hxc : x == c <;>
      simp [List.contains, List.elem, hxc] <;>
      simpa [List.contains, List.elem] using ih

theorem contains_mem (l : List String) (a : String) : l.contains a = true ↔ a ∈ l :=
  List.elem_iff

theorem mem_of_contains_true (l : List String) (a : String)
    (h : l.contains a = true) : a ∈ l :=
  (contains_mem l a).mp h

theorem not_mem_of_contains_false (l : List String) (a : String)
    (h : l.contains a = false) : a ∉ l := by
  intro hm
  rw [(contains_mem l a).mpr hm] at h
  cases h

theorem mark_processed_noTrim (ids : List String) (id : String)
    (hlen : ids.length < STATE_MAX_IDS) :
    mark_processed ids id = if ids.contains id then ids else ids ++ [id] := by
  simp only [mark_processed]
  split_ifs with h1 h2 h3
  · exfalso; omega
  · rfl
  · exfalso
    simp only [List.length_append, List.length_cons, List.length_nil] at h3
    omega
  · rfl

theorem mark_processed_contains (ids : List String) (id : String)
    (hlen : ids.length ≤ STATE_MAX_IDS) :
    (mark_processed ids id).contains id = true := by
  simp only [mark_processed]
  split_ifs with h1 h2 h3
  · exfalso; omega
  · exact h1
  · rw [List.drop_append_of_le_length (by
      simp only [List.length_append, List.length_cons, List.length_nil]
      simp only [STATE_TRIM_TO]
      omega)]
    rw [contains_append_single]
    simp
  · rw [contains_append_single]
    simp

theorem mark_processed_drop_shape (ids : List String) (id : String) :
    ∃ k, mark_processed ids id
      = (if ids.contains id then ids else ids ++ [id]).drop k := by
  simp only [mark_processed]
  by_cases h : STATE_MAX_IDS < (if ids.contains id then ids else ids ++ [id]).length
  · exact ⟨(if ids.contains id then ids else ids ++ [id]).length - STATE_TRIM_TO,
      by rw [if_pos h]⟩
  · exact ⟨0, by rw [if_neg h]; simp⟩

/-! ## `run_once` loop lemmas -/

/-- Full characterization of a cycle in which every materialization
succeeds: the ids get marked, one audit path per new item, and each id
is attempted at most once — exactly once if fresh and present. -/
theorem runOnceGo_okMat (w : String) (dry : Bool) (pathOf : Item → String) :
    ∀ (items : List Item) (acc : RunAcc),
      acc.st.ids.length + items.length ≤ STATE_MAX_IDS →
      ∃ acc2 new,
        runOnceGo w dry (okMat pathOf) acc items = .ok acc2
        ∧ acc2.attempts = acc.attempts ++ new
        ∧ acc2.created = acc.created ++ new.map pathOf
        ∧ (∀ x, acc2.st.ids.contains x
            = (acc.st.ids.contains x || items.any (fun j => j.id == x)))
        ∧ (∀ x, (new.filter (fun j => j.id == x)).length
            = if acc.st.ids.contains x then 0
              else if items.any (fun j => j.id == x) then 1 else 0)
        ∧ (∀ j, j ∈ new → j ∈ items)
        ∧ acc2.st.ids.length ≤ acc.st.ids.length + items.length := by
  intro items
  induction items with
  | nil =>
    intro acc _
    refine ⟨acc, [], rfl, by simp, by simp, by simp, ?_, by simp, by simp⟩
    intro x
    by_cases hc : acc.st.ids.contains x <;> simp [hc]
  | cons it rest ih =>
    intro acc hbud
    by_cases hsp : should_process acc.st.ids it.id
    · have hcont : acc.st.ids.contains it.id = false := by
        simpa [should_process] using hsp
      have hlen : acc.st.ids.length < STATE_MAX_IDS := by
        simp only [List.length_cons] at hbud; omega
      have hmark : mark_processed acc.st.ids it.id = acc.st.ids ++ [it.id] := by
        rw [mark_processed_noTrim _ _ hlen, if_neg (by rw [hcont]; simp)]
      have hbud1 :
          ({ st := { ids := mark_processed acc.st.ids it.id
                     stateFile := save_state (mark_processed acc.st.ids it.id)
                     audit := acc.st.audit
                       ++ [watcherDetectEntry w dry it (pathOf it)] }
             created := acc.created ++ [pathOf it]
             attempts := acc.attempts ++ [it] } : RunAcc).st.ids.length
            + rest.length ≤ STATE_MAX_IDS := by
        simp only [hmark, List.length_append, List.length_cons, List.length_nil]
        simp only [List.length_cons] at hbud
        omega
      obtain ⟨acc2, new, hrun, hatt, hcre, hcontains, hcount, hsub, hlen2⟩ :=
        ih _ hbud1
      refine ⟨acc2, it :: new, ?_, ?_, ?_, ?_, ?_, ?_, ?_⟩
      · simp only [runOnceGo, okMat]
        rw [if_pos hsp]
        exact hrun
      · rw [hatt]; simp
      · rw [hcre]; simp
      · intro x
        rw [hcontains x]
        simp only [hmark]
        rw [contains_append_single, beqStr_comm x it.id, Bool.or_assoc]
        simp [List.any_cons]
      · intro x
        rw [List.filter_cons]
        by_cases hx : (it.id == x)
        · have hxe : it.id = x := eq_of_beq hx
          have hcx : acc.st.ids.contains x = false := by rw [← hxe]; exact hcont
          have hnewcount := hcount x
          simp only [hmark] at hnewcount
          rw [contains_append_single, beqStr_comm x it.id, hx, hcx] at hnewcount
          simp only [Bool.or_true] at hnewcount
          simp [hx, hcx, hnewcount, List.any_cons,
            not_mem_of_contains_false _ _ hcx]
        · have hx2 : (it.id == x) = false := by simpa using hx
          have hnewcount := hcount x
          simp only [hmark] at hnewcount
          rw [contains_append_single, beqStr_comm x it.id, hx2] at hnewcount
          simp only [Bool.or_false] at hnewcount
          by_cases hcx : acc.st.ids.contains x
          · simp [hx2, hnewcount, List.any_cons, mem_of_contains_true _ _ hcx, hcx]
          · have hcxf : acc.st.ids.contains x = false := by simpa using hcx
            simp [hx2, hnewcount, List.any_cons,
              not_mem_of_contains_false _ _ hcxf, hcxf]
      · intro j hj
        rcases List.mem_cons.mp hj with he | hj2
        · exact he ▸ List.mem_cons_self _ _
        · exact List.mem_cons_of_mem _ (hsub j hj2)
      · simp only [hmark, List.length_append, List.length_cons, List.length_nil] at hlen2
        simp only [List.length_cons]
        omega
    · have hcont : acc.st.ids.contains it.id = true := by
        have := hsp
        simp only [should_process] at this
        simpa using this
      have hbud2 : acc.st.ids.length + rest.length ≤ STATE_MAX_IDS := by
        simp only [List.length_cons] at hbud; omega
      obtain ⟨acc2, new, hrun, hatt, hcre, hcontains, hcount, hsub, hlen2⟩ :=
        ih acc hbud2
      have hspf : should_process acc.st.ids it.id = false := by
        simpa using hsp
      refine ⟨acc2, new, ?_, hatt, hcre, ?_, ?_,
        fun j hj => List.mem_cons_of_mem _ (hsub j hj), ?_⟩
      · simp only [runOnceGo]
        rw [if_neg (by simp [hspf])]
        exact hrun
      · intro x
        rw [hcontains x]
        by_cases hx : (it.id == x)
        · have hxe : it.id = x := eq_of_beq hx
          have hcx : acc.st.ids.contains x = true := by rw [← hxe]; exact hcont
          simp [hcx, mem_of_contains_true _ _ hcx]
        · have hx2 : (it.id == x) = false := by simpa using hx
          simp [List.any_cons, hx2]
      · intro x
        rw [hcount x]
        by_cases hx : (it.id == x)
        · have hxe : it.id = x := eq_of_beq hx
          have hcx : acc.st.ids.contains x = true := by rw [← hxe]; exact hcont
          simp [hcx, mem_of_contains_true _ _ hcx]
        · have hx2 : (it.id == x) = false := by simpa using hx
          simp [List.any_cons, hx2]
      · simp only [List.length_cons]
        omega

/-! ## C1: deduplication invariant and idempotent materialization -/

/-- Claim C1: after `mark_processed(id)`, `should_process(id)` returns
false; the persisted state survives a save/load restart; entries can
disappear only by oldest-first capacity trimming (the new list is a
suffix of the appended list); and running `run_once` twice over the
same poll result with successful materialization calls
`create_action_file` at most once per item id — exactly once for a
fresh id present in the poll — `created` being exactly the
materialized paths and the second cycle materializing nothing. -/
theorem dedup_invariant :
    (∀ (ids : List String) (id : String), ids.length ≤ STATE_MAX_IDS →
      should_process (mark_processed ids id) id = false
      ∧ load_state (save_state (mark_processed ids id)) = mark_processed ids id)
    ∧ (∀ (ids : List String) (id : String), ∃ k,
        mark_processed ids id = (if ids.contains id then ids else ids ++ [id]).drop k)
    ∧ (∀ (w : String) (dry : Bool) (pathOf : Item → String) (st : WState)
        (items : List Item),
        st.ids.length + items.length + items.length ≤ STATE_MAX_IDS →
        ∃ acc1 acc2,
          run_once w dry (okMat pathOf) st items = .ok acc1
          ∧ run_once w dry (okMat pathOf) acc1.st items = .ok acc2
          ∧ acc1.created = acc1.attempts.map pathOf
          ∧ acc2.attempts = []
          ∧ acc2.created = []
          ∧ (∀ x, (acc1.attempts.filter (fun j => j.id == x)).length ≤ 1)
          ∧ (∀ x, should_process st.ids x = true →
              items.any (fun j => j.id == x) = true →
              (acc1.attempts.filter (fun j => j.id == x)).length = 1)) := by
  refine ⟨?_, ?_, ?_⟩
  · intro ids id hlen
    exact ⟨by simp only [should_process, mark_processed_contains ids id hlen,
      Bool.not_true], rfl⟩
  · intro ids id
    exact mark_processed_drop_shape ids id
  · intro w dry pathOf st items hbud
    obtain ⟨acc1, new1, hrun1, hatt1, hcre1, hcontains1, hcount1, hsub1, hlen1⟩ :=
      runOnceGo_okMat w dry pathOf items
        { st := st, created := [], attempts := [] } (by simp; omega)
    have hbud2 :
        ({ st := acc1.st, created := [], attempts := [] } : RunAcc).st.ids.length
          + items.length ≤ STATE_MAX_IDS := by
      simp only at hlen1 ⊢
      omega
    obtain ⟨acc2, new2, hrun2, hatt2, hcre2, hcontains2, hcount2, hsub2, hlen2⟩ :=
      runOnceGo_okMat w dry pathOf items
        { st := acc1.st, created := [], attempts := [] } hbud2
    have hnew2 : new2 = [] := by
      cases hn : new2 with
      | nil => rfl
      | cons j t =>
        exfalso
        have hj : j ∈ new2 := by rw [hn]; exact List.mem_cons_self _ _
        have hjitems : j ∈ items := hsub2 j hj
        have hany : items.any (fun q => q.id == j.id) = true := by
          rw [List.any_eq_true]
          exact ⟨j, hjitems, by simp⟩
        have hcont1 : acc1.st.ids.contains j.id = true := by
          rw [hcontains1 j.id, hany]
          simp
        have hz := hcount2 j.id
        rw [hcont1] at hz
        simp only [if_pos rfl] at hz
        have hmemf : j ∈ new2.filter (fun q => q.id == j.id) :=
          List.mem_filter.mpr ⟨hj, by simp⟩
        have hznil : new2.filter (fun q => q.id == j.id) = [] :=
          List.eq_nil_of_length_eq_zero hz
        rw [hznil] at hmemf
        cases hmemf
    refine ⟨acc1, acc2, hrun1, hrun2, ?_, ?_, ?_, ?_, ?_⟩
    · rw [hcre1, hatt1]; simp
    · rw [hatt2, hnew2]; rfl
    · rw [hcre2, hnew2]; rfl
    · intro x
      rw [hatt1]
      simp only [List.nil_append]
      rw [hcount1 x]
      by_cases hc : st.ids.contains x
      · simp [mem_of_contains_true _ _ hc]
      · have hcf : st.ids.contains x = false := by simpa using hc
        simp only [not_mem_of_contains_false _ _ hcf, if_false]
        split_ifs <;> omega
    · intro x hfresh hany
      rw [hatt1]
      simp only [List.nil_append]
      rw [hcount1 x]
      have hcf : st.ids.contains x = false := by
        simpa [should_process] using hfresh
      rw [hcf, hany]
      simp

/-- Witness for `dedup_invariant` at a concrete two-item poll over an
empty state. -/
theorem dedup_invariant_witness :
    should_process (mark_processed [] "a") "a" = false
    ∧ ∃ acc1 acc2,
        run_once "w" false (okMat pathOfSample) emptyWState [itemA, itemB] = .ok acc1
        ∧ run_once "w" false (okMat pathOfSample) acc1.st [itemA, itemB] = .ok acc2
        ∧ acc1.created = acc1.attempts.map pathOfSample
        ∧ acc2.attempts = []
        ∧ acc2.created = []
        ∧ (∀ x, (acc1.attempts.filter (fun j => j.id == x)).length ≤ 1)
        ∧ (∀ x, should_process emptyWState.ids x = true →
            [itemA, itemB].any (fun j => j.id == x) = true →
            (acc1.attempts.filter (fun j => j.id == x)).length = 1) := by
  refine ⟨((dedup_invariant).1 [] "a" (by simp [STATE_MAX_IDS])).1, ?_⟩
  exact (dedup_invariant).2.2 "w" false pathOfSample emptyWState [itemA, itemB]
    (by simp [emptyWState, STATE_MAX_IDS])

/-! ## Loop lemmas for failure handling -/

theorem runOnceGo_attempts_mono (w : String) (dry : Bool) (mat : Item → MatResult) :
    ∀ (items : List Item) (acc : RunAcc),
      ∃ t, (accOf (runOnceGo w dry mat acc items)).attempts = acc.attempts ++ t := by
  intro items
  induction items with
  | nil => intro acc; exact ⟨[], by simp [runOnceGo, accOf]⟩
  | cons it rest ih =>
    intro acc
    by_cases hsp : should_process acc.st.ids it.id
    · cases hmat : mat it with
      | otherRaise m =>
        refine ⟨[it], ?_⟩
        simp only [runOnceGo]
        rw [if_pos hsp, hmat]
        simp [accOf]
      | osError m =>
        obtain ⟨t, ht⟩ := ih { acc with attempts := acc.attempts ++ [it] }
        refine ⟨it :: t, ?_⟩
        simp only [runOnceGo]
        rw [if_pos hsp, hmat]
        rw [ht]
        simp
      | ok p =>
        obtain ⟨t, ht⟩ := ih
          { st := { ids := mark_processed acc.st.ids it.id
                    stateFile := save_state (mark_processed acc.st.ids it.id)
                    audit := acc.st.audit ++ [watcherDetectEntry w dry it p] }
            created := acc.created ++ [p]
            attempts := acc.attempts ++ [it] }
        refine ⟨it :: t, ?_⟩
        simp only [runOnceGo]
        rw [if_pos hsp, hmat]
        rw [ht]
        simp
    · have hspf : ¬ should_process acc.st.ids it.id = true := hsp
      obtain ⟨t, ht⟩ := ih acc
      refine ⟨t, ?_⟩
      simp only [runOnceGo]
      rw [if_neg hspf]
      exact ht

theorem runOnceGo_no_raise (w : String) (dry : Bool) (mat : Item → MatResult)
    (hm : ∀ it msg, mat it ≠ .otherRaise msg) :
    ∀ (items : List Item) (acc : RunAcc),
      ∃ acc2, runOnceGo w dry mat acc items = .ok acc2 := by
  intro items
  induction items with
  | nil => intro acc; exact ⟨acc, rfl⟩
  | cons it rest ih =>
    intro acc
    by_cases hsp : should_process acc.st.ids it.id
    · cases hmat : mat it with
      | otherRaise m => exact absurd hmat (hm it m)
      | osError m =>
        obtain ⟨acc2, h⟩ := ih { acc with attempts := acc.attempts ++ [it] }
        refine ⟨acc2, ?_⟩
        simp only [runOnceGo]
        rw [if_pos hsp, hmat]
        exact h
      | ok p =>
        obtain ⟨acc2, h⟩ := ih
          { st := { ids := mark_processed acc.st.ids it.id
                    stateFile := save_state (mark_processed acc.st.ids it.id)
                    audit := acc.st.audit ++ [watcherDetectEntry w dry it p] }
            created := acc.created ++ [p]
            attempts := acc.attempts ++ [it] }
        refine ⟨acc2, ?_⟩
        simp only [runOnceGo]
        rw [if_pos hsp, hmat]
        exact h
    · obtain ⟨acc2, h⟩ := ih acc
      refine ⟨acc2, ?_⟩
      simp only [runOnceGo]
      rw [if_neg hsp]
      exact h

/-- A fresh item present in a completed cycle is always attempted
(`create_action_file` is invoked for its id). -/
theorem runOnceGo_attempted (w : String) (dry : Bool) (mat : Item → MatResult) :
    ∀ (items : List Item) (acc : RunAcc) (it : Item),
      acc.st.ids.length + items.length ≤ STATE_MAX_IDS →
      it ∈ items →
      should_process acc.st.ids it.id = true →
      ∀ acc2, runOnceGo w dry mat acc items = .ok acc2 →
      acc2.attempts.any (fun j => j.id == it.id) = true := by
  intro items
  induction items with
  | nil =>
    intro acc it _ hmem
    cases hmem
  | cons hd rest ih =>
    intro acc it hbud hmem hfresh acc2 hrun
    by_cases hsp : should_process acc.st.ids hd.id
    · cases hmat : mat hd with
      | otherRaise m =>
        exfalso
        have hstep : runOnceGo w dry mat acc (hd :: rest)
            = .raised { acc with attempts := acc.attempts ++ [hd] } m := by
          simp only [runOnceGo]
          rw [if_pos hsp, hmat]
        rw [hstep] at hrun
        cases hrun
      | osError m =>
        have hstep : runOnceGo w dry mat acc (hd :: rest)
            = runOnceGo w dry mat { acc with attempts := acc.attempts ++ [hd] } rest := by
          simp only [runOnceGo]
          rw [if_pos hsp, hmat]
        rw [hstep] at hrun
        rcases List.mem_cons.mp hmem with he | hmem2
        · subst he
          obtain ⟨t, ht⟩ := runOnceGo_attempts_mono w dry mat rest
            { acc with attempts := acc.attempts ++ [it] }
          rw [hrun] at ht
          simp only [accOf] at ht
          rw [ht, List.any_append, List.any_append]
          simp
        · refine ih { acc with attempts := acc.attempts ++ [hd] } it ?_ hmem2 hfresh acc2 hrun
          show acc.st.ids.length + rest.length ≤ STATE_MAX_IDS
          simp only [List.length_cons] at hbud
          omega
      | ok p =>
        have hstep : runOnceGo w dry mat acc (hd :: rest)
            = runOnceGo w dry mat
                { st := { ids := mark_processed acc.st.ids hd.id
                          stateFile := save_state (mark_processed acc.st.ids hd.id)
                          audit := acc.st.audit ++ [watcherDetectEntry w dry hd p] }
                  created := acc.created ++ [p]
                  attempts := acc.attempts ++ [hd] } rest := by
          simp only [runOnceGo]
          rw [if_pos hsp, hmat]
        rw [hstep] at hrun
        rcases List.mem_cons.mp hmem with he | hmem2
        · subst he
          obtain ⟨t, ht⟩ := runOnceGo_attempts_mono w dry mat rest
            { st := { ids := mark_processed acc.st.ids it.id
                      stateFile := save_state (mark_processed acc.st.ids it.id)
                      audit := acc.st.audit ++ [watcherDetectEntry w dry it p] }
              created := acc.created ++ [p]
              attempts := acc.attempts ++ [it] }
          rw [hrun] at ht
          simp only [accOf] at ht
          rw [ht, List.any_append, List.any_append]
          simp
        · by_cases hid : hd.id = it.id
          · obtain ⟨t, ht⟩ := runOnceGo_attempts_mono w dry mat rest
              { st := { ids := mark_processed acc.st.ids hd.id
                        stateFile := save_state (mark_processed acc.st.ids hd.id)
                        audit := acc.st.audit ++ [watcherDetectEntry w dry hd p] }
                created := acc.created ++ [p]
                attempts := acc.attempts ++ [hd] }
            rw [hrun] at ht
            simp only [accOf] at ht
            rw [ht, List.any_append, List.any_append]
            simp [hid]
          · have hlen : acc.st.ids.length < STATE_MAX_IDS := by
              simp only [List.length_cons] at hbud; omega
            have hcont : acc.st.ids.contains hd.id = false := by
              simpa [should_process] using hsp
            have hmark : mark_processed acc.st.ids hd.id = acc.st.ids ++ [hd.id] := by
              rw [mark_processed_noTrim _ _ hlen, if_neg (by rw [hcont]; simp)]
            have hfresh2 : should_process (mark_processed acc.st.ids hd.id) it.id = true := by
              simp only [should_process, hmark, contains_append_single]
              have h1 : acc.st.ids.contains it.id = false := by
                simpa [should_process] using hfresh
              have h2 : (it.id == hd.id) = false := by
                simpa using fun e => hid e.symm
              rw [h1, h2]
              rfl
            refine ih _ it ?_ hmem2 hfresh2 acc2 hrun
            show (mark_processed acc.st.ids hd.id).length + rest.length ≤ STATE_MAX_IDS
            simp only [hmark, List.length_append, List.length_cons, List.length_nil]
            simp only [List.length_cons] at hbud
            omega
    · rcases List.mem_cons.mp hmem with he | hmem2
      · subst he
        exact absurd hfresh hsp
      · have hstep : runOnceGo w dry mat acc (hd :: rest)
            = runOnceGo w dry mat acc rest := by
          simp only [runOnceGo]
          rw [if_neg hsp]
        rw [hstep] at hrun
        refine ih acc it ?_ hmem2 hfresh acc2 hrun
        simp only [List.length_cons] at hbud
        omega

/-- Per-cycle effect with an arbitrary materializer: one
`watcher_detect` audit entry per successful materialization and marking
of exactly the successfully-materialized ids. -/
theorem runOnceGo_general (w : String) (dry : Bool) (mat : Item → MatResult) :
    ∀ (items : List Item) (acc : RunAcc),
      acc.st.ids.length + items.length ≤ STATE_MAX_IDS →
      ∃ pairs : List (Item × String),
        (accOf (runOnceGo w dry mat acc items)).st.audit
          = acc.st.audit ++ pairs.map (fun q => watcherDetectEntry w dry q.1 q.2)
        ∧ (∀ x, (accOf (runOnceGo w dry mat acc items)).st.ids.contains x
            = (acc.st.ids.contains x || pairs.any (fun q => q.1.id == x)))
        ∧ (∀ q, q ∈ pairs → q.1 ∈ items ∧ mat q.1 = .ok q.2)
        ∧ (accOf (runOnceGo w dry mat acc items)).st.ids.length
            ≤ acc.st.ids.length + items.length := by
  intro items
  induction items with
  | nil =>
    intro acc _
    refine ⟨[], by simp [runOnceGo, accOf], ?_, by simp, by simp [runOnceGo, accOf]⟩
    intro x
    simp [runOnceGo, accOf]
  | cons it rest ih =>
    intro acc hbud
    by_cases hsp : should_process acc.st.ids it.id
    · cases hmat : mat it with
      | otherRaise m =>
        have hstep : runOnceGo w dry mat acc (it :: rest)
            = .raised { acc with attempts := acc.attempts ++ [it] } m := by
          simp only [runOnceGo]
          rw [if_pos hsp, hmat]
        refine ⟨[], ?_, ?_, by simp, ?_⟩
        · rw [hstep]; simp [accOf]
        · intro x; rw [hstep]; simp [accOf]
        · rw [hstep]
          simp only [accOf, List.length_cons]
          omega
      | osError m =>
        have hstep : runOnceGo w dry mat acc (it :: rest)
            = runOnceGo w dry mat { acc with attempts := acc.attempts ++ [it] } rest := by
          simp only [runOnceGo]
          rw [if_pos hsp, hmat]
        have hbud2 : ({ acc with attempts := acc.attempts ++ [it] } : RunAcc).st.ids.length
            + rest.length ≤ STATE_MAX_IDS := by
          show acc.st.ids.length + rest.length ≤ STATE_MAX_IDS
          simp only [List.length_cons] at hbud
          omega
        obtain ⟨pairs, h1, h2, h3, h4⟩ := ih { acc with attempts := acc.attempts ++ [it] } hbud2
        refine ⟨pairs, ?_, ?_,
          fun q hq => ⟨List.mem_cons_of_mem _ (h3 q hq).1, (h3 q hq).2⟩, ?_⟩
        · rw [hstep]; exact h1
        · intro x; rw [hstep]; exact h2 x
        · rw [hstep]
          have h4x : (accOf (runOnceGo w dry mat
              { acc with attempts := acc.attempts ++ [it] } rest)).st.ids.length
              ≤ acc.st.ids.length + rest.length := h4
          simp only [List.length_cons]
          omega
      | ok p =>
        have hlen : acc.st.ids.length < STATE_MAX_IDS := by
          simp only [List.length_cons] at hbud; omega
        have hcont : acc.st.ids.contains it.id = false := by
          simpa [should_process] using hsp
        have hmark : mark_processed acc.st.ids it.id = acc.st.ids ++ [it.id] := by
          rw [mark_processed_noTrim _ _ hlen, if_neg (by rw [hcont]; simp)]
        have hstep : runOnceGo w dry mat acc (it :: rest)
            = runOnceGo w dry mat
                { st := { ids := mark_processed acc.st.ids it.id
                          stateFile := save_state (mark_processed acc.st.ids it.id)
                          audit := acc.st.audit ++ [watcherDetectEntry w dry it p] }
                  created := acc.created ++ [p]
                  attempts := acc.attempts ++ [it] } rest := by
          simp only [runOnceGo]
          rw [if_pos hsp, hmat]
        have hbud2 :
            ({ st := { ids := mark_processed acc.st.ids it.id
                       stateFile := save_state (mark_processed acc.st.ids it.id)
                       audit := acc.st.audit ++ [watcherDetectEntry w dry it p] }
               created := acc.created ++ [p]
               attempts := acc.attempts ++ [it] } : RunAcc).st.ids.length
              + rest.length ≤ STATE_MAX_IDS := by
          simp only [hmark, List.length_append, List.length_cons, List.length_nil]
          simp only [List.length_cons] at hbud
          omega
        obtain ⟨pairs, h1, h2, h3, h4⟩ := ih _ hbud2
        refine ⟨(it, p) :: pairs, ?_, ?_, ?_, ?_⟩
        · rw [hstep, h1]
          simp
        · intro x
          rw [hstep, h2 x]
          simp only [hmark]
          rw [contains_append_single, beqStr_comm x it.id, Bool.or_assoc]
          simp [List.any_cons]
        · intro q hq
          rcases List.mem_cons.mp hq with he | hq2
          · rw [he]
            exact ⟨List.mem_cons_self _ _, hmat⟩
          · exact ⟨List.mem_cons_of_mem _ (h3 q hq2).1, (h3 q hq2).2⟩
        · rw [hstep]
          have h4x : (accOf (runOnceGo w dry mat
              { st := { ids := mark_processed acc.st.ids it.id
                        stateFile := save_state (mark_processed acc.st.ids it.id)
                        audit := acc.st.audit ++ [watcherDetectEntry w dry it p] }
                created := acc.created ++ [p]
                attempts := acc.attempts ++ [it] } rest)).st.ids.length
              ≤ (mark_processed acc.st.ids it.id).length + rest.length := h4
          have hmlen : (mark_processed acc.st.ids it.id).length
              = acc.st.ids.length + 1 := by
            rw [hmark]
            simp
          simp only [List.length_cons]
          omega
    · have hstep : runOnceGo w dry mat acc (it :: rest)
          = runOnceGo w dry mat acc rest := by
        simp only [runOnceGo]
        rw [if_neg hsp]
      have hbud2 : acc.st.ids.length + rest.length ≤ STATE_MAX_IDS := by
        simp only [List.length_cons] at hbud; omega
      obtain ⟨pairs, h1, h2, h3, h4⟩ := ih acc hbud2
      refine ⟨pairs, ?_, ?_,
        fun q hq => ⟨List.mem_cons_of_mem _ (h3 q hq).1, (h3 q hq).2⟩, ?_⟩
      · rw [hstep]; exact h1
      · intro x; rw [hstep]; exact h2 x
      · rw [hstep]
        have h4x : (accOf (runOnceGo w dry mat acc rest)).st.ids.length
            ≤ acc.st.ids.length + rest.length := h4
        simp only [List.length_cons]
        omega

/-! ## C7: a failed write is never treated as done -/

/-- Claim C7: an item whose materialization fails with an I/O error
during a cycle is not marked processed and gets no audit entry — every
new audit entry stems from a successfully materialized item with a
different id — so `should_process(item.id)` remains true and any later
completed cycle over the same poll attempts the item again. -/
theorem failed_write_not_done (w : String) (dry : Bool) (mat : Item → MatResult)
    (st : WState) (items : List Item) (x : String)
    (hbud : st.ids.length + items.length ≤ STATE_MAX_IDS)
    (hfresh : should_process st.ids x = true)
    (hfail : ∀ it, it ∈ items → it.id = x → ∃ msg, mat it = .osError msg) :
    should_process (accOf (run_once w dry mat st items)).st.ids x = true
    ∧ (∃ pairs : List (Item × String),
        (accOf (run_once w dry mat st items)).st.audit
          = st.audit ++ pairs.map (fun q => watcherDetectEntry w dry q.1 q.2)
        ∧ ∀ q, q ∈ pairs → q.1 ∈ items ∧ mat q.1 = .ok q.2 ∧ q.1.id ≠ x)
    ∧ (∀ (mat2 : Item → MatResult) (acc2 : RunAcc) (it : Item),
        (accOf (run_once w dry mat st items)).st.ids.length + items.length
          ≤ STATE_MAX_IDS →
        run_once w dry mat2 (accOf (run_once w dry mat st items)).st items = .ok acc2 →
        it ∈ items → it.id = x →
        acc2.attempts.any (fun j => j.id == x) = true) := by
  simp only [run_once]
  obtain ⟨pairs, h1, h2, h3, h4⟩ := runOnceGo_general w dry mat items
    { st := st, created := [], attempts := [] }
    (by show st.ids.length + items.length ≤ STATE_MAX_IDS; exact hbud)
  have hcf : st.ids.contains x = false := by
    simpa [should_process] using hfresh
  have hnone : pairs.any (fun q => q.1.id == x) = false := by
    rw [List.any_eq_false]
    intro q hq
    intro hbeq
    have hqx : q.1.id = x := eq_of_beq hbeq
    obtain ⟨msg, hmsg⟩ := hfail q.1 (h3 q hq).1 hqx
    have hok := (h3 q hq).2
    rw [hmsg] at hok
    cases hok
  have hp1 : should_process (accOf (runOnceGo w dry mat
      { st := st, created := [], attempts := [] } items)).st.ids x = true := by
    simp only [should_process, h2 x, hcf, hnone]
    rfl
  refine ⟨hp1, ⟨pairs, h1, ?_⟩, ?_⟩
  · intro q hq
    refine ⟨(h3 q hq).1, (h3 q hq).2, ?_⟩
    intro hqx
    obtain ⟨msg, hmsg⟩ := hfail q.1 (h3 q hq).1 hqx
    have hok := (h3 q hq).2
    rw [hmsg] at hok
    cases hok
  · intro mat2 acc2 it hbud2 hrun hmem hidx
    have hfresh2 : should_process (accOf (runOnceGo w dry mat
        { st := st, created := [], attempts := [] } items)).st.ids it.id = true := by
      rw [hidx]
      exact hp1
    have := runOnceGo_attempted w dry mat2 items
      { st := (accOf (runOnceGo w dry mat
          { st := st, created := [], attempts := [] } items)).st
        created := [], attempts := [] } it
      (by
        show (accOf (runOnceGo w dry mat
          { st := st, created := [], attempts := [] } items)).st.ids.length
            + items.length ≤ STATE_MAX_IDS
        exact hbud2) hmem hfresh2 acc2 hrun
    rw [hidx] at this
    exact this

/-- Witness for `failed_write_not_done`: a one-item poll whose
materialization hits an `OSError`. -/
theorem failed_write_not_done_witness :
    should_process (accOf (run_once "w" false osFailMat emptyWState [itemA])).st.ids
      "a" = true
    ∧ (accOf (run_once "w" false osFailMat emptyWState [itemA])).st.audit = [] := by
  have h := failed_write_not_done "w" false osFailMat emptyWState [itemA] "a"
    (by decide)
    (by decide)
    (by
      intro it hmem hid
      rcases List.mem_singleton.mp hmem with rfl
      exact ⟨"disk full", rfl⟩)
  refine ⟨h.1, ?_⟩
  rfl

/-! ## C8: per-item failure containment (corrected) -/

/-- Claim C8 counterexample: an exception other than
`OSError`/`PermissionError` raised while materializing the first item
escapes `run_once` and aborts the cycle — the second item is neither
attempted nor materialized, contradicting the claim that any exception
lets the loop continue with the remaining items. -/
theorem run_once_aborts_on_unexpected_exception :
    run_once "w" false keyErrorMat emptyWState [itemA, itemB]
      = .raised { st := emptyWState, created := [], attempts := [itemA] }
          "KeyError: missing field"
    ∧ (accOf (run_once "w" false keyErrorMat emptyWState [itemA, itemB])).attempts.any
        (fun j => j.id == itemB.id) = false
    ∧ (accOf (run_once "w" false keyErrorMat emptyWState [itemA, itemB])).created = [] :=
  ⟨rfl, rfl, rfl⟩

/-- Claim C8 (amended): an `OSError`/`PermissionError` while
materializing a single item does not abort the cycle — `run_once`
completes and every fresh item of the poll is still attempted; any
other exception aborts the remainder of the cycle but is caught at the
`run` loop boundary, which keeps the partially-mutated state and moves
on to the next cycle. -/
theorem cycle_continues_on_oserror :
    (∀ (w : String) (dry : Bool) (mat : Item → MatResult) (st : WState)
        (items : List Item),
      (∀ it msg, mat it ≠ .otherRaise msg) →
      st.ids.length + items.length ≤ STATE_MAX_IDS →
      ∃ acc2, run_once w dry mat st items = .ok acc2
        ∧ ∀ it, it ∈ items → should_process st.ids it.id = true →
            acc2.attempts.any (fun j => j.id == it.id) = true)
    ∧ (∀ (w : String) (dry : Bool) (mat : Item → MatResult) (st : WState)
        (items : List Item) (acc : RunAcc) (msg : String),
        run_once w dry mat st items = .raised acc msg →
        runCycleStep w dry mat st items = acc.st) := by
  constructor
  · intro w dry mat st items hm hbud
    obtain ⟨acc2, h⟩ := runOnceGo_no_raise w dry mat hm items
      { st := st, created := [], attempts := [] }
    refine ⟨acc2, h, ?_⟩
    intro it hmem hfresh
    exact runOnceGo_attempted w dry mat items
      { st := st, created := [], attempts := [] } it
      (by show st.ids.length + items.length ≤ STATE_MAX_IDS; exact hbud)
      hmem hfresh acc2 h
  · intro w dry mat st items acc msg hr
    simp only [runCycleStep, hr]

/-- Witness for `cycle_continues_on_oserror`: a two-item poll where the
first item fails with `OSError` — both items are still attempted — and
the concrete aborted cycle whose state the loop boundary keeps. -/
theorem cycle_continues_on_oserror_witness :
    (∃ acc2, run_once "w" false osFailMat emptyWState [itemA, itemB] = .ok acc2
      ∧ ∀ it, it ∈ [itemA, itemB] → should_process emptyWState.ids it.id = true →
          acc2.attempts.any (fun j => j.id == it.id) = true)
    ∧ runCycleStep "w" false keyErrorMat emptyWState [itemA, itemB]
        = { ids := [], stateFile := .absent, audit := [] } := by
  constructor
  · exact (cycle_continues_on_oserror).1 "w" false osFailMat emptyWState
      [itemA, itemB]
      (by
        intro it msg h
        by_cases hc : it.id == "a" <;> simp [osFailMat, hc] at h)
      (by decide)
  · exact (cycle_continues_on_oserror).2 "w" false keyErrorMat emptyWState
      [itemA, itemB] { st := emptyWState, created := [], attempts := [itemA] }
      "KeyError: missing field" rfl

/-! ## C3: successful approval cycle (corrected) -/

/-- Claim C3 counterexample: one processing cycle over the sample
approved `send_email` file (valid recipient `a@b.com`, non-empty body)
with an executor stub returning success writes TWO audit entries with
result `success`, not exactly one: the handler's `hitl_execution`
entry plus the inherited poller's `watcher_detect` entry. -/
theorem success_cycle_two_success_entries :
    (sampleCycle.1.vault.audit.filter (fun e => e.result == "success")).length = 2
    ∧ ¬ ((sampleCycle.1.vault.audit.filter
        (fun e => e.result == "success")).length = 1) := by
  have h : (sampleCycle.1.vault.audit.filter
      (fun e => e.result == "success")).length = 2 := rfl
  exact ⟨h, by omega⟩

/-- Claim C3 (amended): after one cycle on the sample file with a
succeeding executor, the file is absent from `Approved/`, present in
`Done/` with header `status: executed`, and the audit log has exactly
one `hitl_execution` entry with result `success` — the poller's
`watcher_detect` entry being the only other success entry. -/
theorem success_cycle_materializes_once :
    sampleCycle.1.vault.approved = []
    ∧ sampleCycle.1.vault.done
        = [(sampleName, update_frontmatter_fields sampleFile
            [("status", YVal.s "executed")])]
    ∧ lookupKV (read_frontmatter (update_frontmatter_fields sampleFile
        [("status", YVal.s "executed")])) "status" = some (YVal.s "executed")
    ∧ (sampleCycle.1.vault.audit.filter
        (fun e => e.action_type == "hitl_execution" && e.result == "success")).length = 1
    ∧ (sampleCycle.1.vault.audit.filter
        (fun e => e.action_type == "watcher_detect" && e.result == "success")).length = 1
    ∧ sampleCycle.2 = ["Done/" ++ sampleName] :=
  ⟨rfl, rfl, rfl, rfl, rfl, rfl⟩

/-! ## C5: staleness sweep (corrected) -/

/-- After the flag write, a closed-frontmatter file reads back as
flagged. -/
theorem stale_flag_roundtrip (c : FileContent) (h : hasClosedFront c = true) :
    YVal.beq (pyGet (read_frontmatter (update_frontmatter_fields c
      [("stale", YVal.b true)])) "stale") (.b true) = true := by
  cases c with
  | unreadable m => simp [hasClosedFront] at h
  | noFront b => simp [hasClosedFront] at h
  | unclosed b => simp [hasClosedFront] at h
  | badYaml m b => rfl
  | yaml v b =>
    cases v with
    | m kvs =>
      simp only [update_frontmatter_fields, read_frontmatter]
      have hu : updateKVs kvs [("stale", YVal.b true)]
          = upsertKV kvs "stale" (YVal.b true) := by
        simp [updateKVs]
      rw [hu]
      simp only [pyGet, lookupKV_upsertKV]
      rfl
    | s v => rfl
    | b v => rfl
    | n v => rfl
    | none => rfl
    | l vs => rfl

/-- Claim C5 counterexample: a pending `.md` file without a frontmatter
block can never be flagged (`_update_frontmatter_fields` silently
returns), so two consecutive sweeps over the same already-expired file
emit TWO dashboard notifications, not one in total. -/
theorem stale_sweep_renotifies_without_frontmatter :
    twoSweepDashCount pendingNoFront = 2
    ∧ ¬ (twoSweepDashCount pendingNoFront = 1) := by
  have h : twoSweepDashCount pendingNoFront = 2 := rfl
  exact ⟨h, by omega⟩

/-- Claim C5 (amended): for a pending file whose content carries a
closed frontmatter block, the first sweep writes the stale flag before
emitting the single dashboard notification (the event order is flag,
notify, warn), and a second sweep still returns the file in the stale
list while emitting no events at all; moreover no sweep ever moves,
removes or auto-rejects a file (names are preserved in place).  Files
without such a block cannot be flagged and are re-notified every
sweep. -/
theorem stale_flag_before_notify (expiry : Nat) (now : Int) (f : PendingFile)
    (hclosed : hasClosedFront f.content = true)
    (hname : (f.name == ".gitkeep") = false)
    (hflag : YVal.beq (pyGet (read_frontmatter f.content) "stale") (.b true) = false)
    (hage : (expiry : Int) * 3600 ≤ now - f.mtime) :
    check_stale_approvals expiry now [f]
      = { pending := [{ f with content := (update_frontmatter_fields f.content
            [("stale", YVal.b true)]) }]
          stale := [f.name]
          events := [StaleEv.flagSet f.name,
            StaleEv.dashError "approval_watcher"
              ("Stale approval: "
                ++ pyStr (pyGetD (read_frontmatter f.content) "action_type"
                    (YVal.s "unknown"))
                ++ " for "
                ++ pyStr (pyGetD (read_frontmatter f.content) "target"
                    (YVal.s f.name))
                ++ " (waiting " ++ toString ((now - f.mtime) / 3600) ++ "h)"),
            StaleEv.warnLog f.name] }
    ∧ (check_stale_approvals expiry now
        (check_stale_approvals expiry now [f]).pending).stale = [f.name]
    ∧ (check_stale_approvals expiry now
        (check_stale_approvals expiry now [f]).pending).events = []
    ∧ (∀ (fs : List PendingFile),
        (check_stale_approvals expiry now fs).pending.map (fun g => g.name)
          = fs.map (fun g => g.name)) := by
  have hstep1 : check_stale_approvals expiry now [f]
      = { pending := [{ f with content := (update_frontmatter_fields f.content
            [("stale", YVal.b true)]) }]
          stale := [f.name]
          events := [StaleEv.flagSet f.name,
            StaleEv.dashError "approval_watcher"
              ("Stale approval: "
                ++ pyStr (pyGetD (read_frontmatter f.content) "action_type"
                    (YVal.s "unknown"))
                ++ " for "
                ++ pyStr (pyGetD (read_frontmatter f.content) "target"
                    (YVal.s f.name))
                ++ " (waiting " ++ toString ((now - f.mtime) / 3600) ++ "h)"),
            StaleEv.warnLog f.name] } := by
    simp only [check_stale_approvals]
    rw [if_neg (by rw [hname]; simp), if_neg (by rw [hflag]; simp),
      if_pos (decide_eq_true hage)]
  have hstep2 : check_stale_approvals expiry now
      [{ f with content := (update_frontmatter_fields f.content
          [("stale", YVal.b true)]) }]
      = { pending := [{ f with content := (update_frontmatter_fields f.content
            [("stale", YVal.b true)]) }]
          stale := [f.name]
          events := [] } := by
    simp only [check_stale_approvals]
    rw [if_neg (by
        show ¬ ((f.name == ".gitkeep") = true)
        rw [hname]
        simp),
      if_pos (by
        show YVal.beq (pyGet (read_frontmatter (update_frontmatter_fields f.content
          [("stale", YVal.b true)])) "stale") (.b true) = true
        exact stale_flag_roundtrip f.content hclosed)]
  refine ⟨hstep1, ?_, ?_, ?_⟩
  · rw [hstep1, hstep2]
  · rw [hstep1, hstep2]
  · intro fs
    induction fs with
    | nil => rfl
    | cons g gs ih =>
      simp only [check_stale_approvals]
      split_ifs <;> simp [ih]

/-- Witness for `stale_flag_before_notify` at a well-formed pending
file 25 hours old with a 24-hour expiry. -/
theorem stale_flag_before_notify_witness :
    (check_stale_approvals 24 sweepNow [pendingGood]).stale = [pendingGood.name]
    ∧ (check_stale_approvals 24 sweepNow
        (check_stale_approvals 24 sweepNow [pendingGood]).pending).events = [] := by
  have h := stale_flag_before_notify 24 sweepNow pendingGood rfl rfl rfl
    (by decide)
  exact ⟨by rw [h.1], h.2.2.1⟩

end DigitalFTE
